import Mathlib

/-!
# Kaushik-Chat-Bot: the `/chat` handler and its conversation store

A shallow embedding of `src/main.go`.  The handler closure registered for
`/chat` (lines 48-101) becomes the function `chatHandler`; the process-wide
map `chatHistory` (line 25) becomes an explicit `Store` value passed in and
out.  The two library calls whose results steer the handler, the JSON
decoder of the standard library and `client.CreateChatCompletion` of
`go-openai`, are fields of `Env`; `decoderDecode` gives the decoder's scan of
the first JSON value of a body.

For the lock discipline the same handler body is also given as a step
function `step` on a state `Sys` of many workers, cut at the mutex calls and
at every access to the map; `run_solo` shows that a worker running alone does
what `chatHandler` does.
-/

namespace ChatBot

/-! ## Data model -/

/-- Go struct `ChatRequest` (lines 15-18). -/
structure ChatRequest where
  UserID : String
  Message : String
  deriving DecidableEq, Repr

/-- Go struct `ChatResponse` (lines 20-22). -/
structure ChatResponse where
  Reply : String
  deriving DecidableEq, Repr

/-- Constant `openai.ChatMessageRoleUser`. -/
def ChatMessageRoleUser : String := "user"

/-- Constant `openai.ChatMessageRoleAssistant`. -/
def ChatMessageRoleAssistant : String := "assistant"

/-- The two fields of `openai.ChatCompletionMessage` that the program sets. -/
structure ChatCompletionMessage where
  Role : String
  Content : String
  deriving DecidableEq, Repr

/-- The two fields of `openai.ChatCompletionRequest` that the program sets
(lines 77-80). -/
structure ChatCompletionRequest where
  Model : String
  Messages : List ChatCompletionMessage
  deriving DecidableEq, Repr

/-- One element of `resp.Choices`; the program reads `.Message.Content`. -/
structure ChatCompletionChoice where
  Message : ChatCompletionMessage
  deriving DecidableEq, Repr

/-- The field of `openai.ChatCompletionResponse` that the program reads. -/
structure ChatCompletionResponse where
  Choices : List ChatCompletionChoice
  deriving DecidableEq, Repr

/-! ## The conversation store -/

/-- The Go map `map[string][]openai.ChatCompletionMessage` (line 25): a key
is absent (`none`) or bound to a slice. -/
abbrev Store : Type := String → Option (List ChatCompletionMessage)

/-- Value `make(map[string][]openai.ChatCompletionMessage)`: no key bound. -/
def Store.empty : Store := fun _ => none

/-- Map read `chatHistory[k]`: the bound slice, or the nil slice (no
elements) when the key is absent. -/
def Store.index (s : Store) (k : String) : List ChatCompletionMessage :=
  (s k).getD []

/-- Map write `chatHistory[k] = v`. -/
def Store.assign (s : Store) (k : String) (v : List ChatCompletionMessage) : Store :=
  fun j => if j = k then some v else s j

/-- The statement `chatHistory[uid] = append(chatHistory[uid],
openai.ChatCompletionMessage{Role: role, Content: content})` of lines 66-71
and 91-96. -/
def Store.append (s : Store) (uid role content : String) : Store :=
  s.assign uid (s.index uid ++ [⟨role, content⟩])

/-- The read `messages := chatHistory[uid]` of line 72. -/
def Store.snapshot (s : Store) (uid : String) : List ChatCompletionMessage :=
  s.index uid

/-! ## HTTP side -/

/-- The two parts of `*http.Request` the handler reads. -/
structure Request where
  Method : String
  Body : String
  deriving DecidableEq, Repr

/-- Constant `http.MethodPost`. -/
def MethodPost : String := "POST"

/-- Constant `http.StatusOK`, the status of a response whose first write
comes without an explicit `WriteHeader`. -/
def StatusOK : Nat := 200

/-- Constant `http.StatusBadRequest`. -/
def StatusBadRequest : Nat := 400

/-- Constant `http.StatusMethodNotAllowed`. -/
def StatusMethodNotAllowed : Nat := 405

/-- Constant `http.StatusInternalServerError`. -/
def StatusInternalServerError : Nat := 500

/-- What was written to the `http.ResponseWriter`: raw bytes, or one value
handed to `json.NewEncoder(w).Encode`. -/
inductive Body where
  | raw (bytes : String)
  | jsonLine (v : ChatResponse)
  deriving DecidableEq, Repr

/-- The response as the client sees it. -/
structure Response where
  status : Nat
  contentType : String
  body : Body
  deriving DecidableEq, Repr

/-- Library call `http.Error(w, msg, code)`: plain-text content type, status
`code`, and the body is `msg` followed by a line feed. -/
def httpError (msg : String) (code : Nat) : Response :=
  ⟨code, "text/plain; charset=utf-8", .raw (msg ++ "\n")⟩

/-- How one run of the handler ends: it wrote a response and returned, or
the index expression `resp.Choices[0]` (line 88) was out of range. -/
inductive Result where
  | responded (r : Response)
  | indexOutOfRange
  deriving DecidableEq, Repr

/-- The external calls of the handler. `Decode` is
`json.NewDecoder(r.Body).Decode(&req)` as a function of the body: the error,
or the decoded struct. `CreateChatCompletion` is the client call of lines
75-81: the error text `err.Error()`, or the response. -/
structure Env where
  Decode : String → Except String ChatRequest
  CreateChatCompletion : ChatCompletionRequest → Except String ChatCompletionResponse

/-- Everything observable of one run: how it ended, the store afterwards,
and the arguments of the completion calls made, in order. -/
structure Outcome where
  result : Result
  store : Store
  calls : List ChatCompletionRequest

/-- The model name of line 78. -/
def modelName : String := "llama-3.1-8b-instant"

/-- The `/chat` handler, lines 48-101. -/
def chatHandler (env : Env) (s : Store) (r : Request) : Outcome :=
  if r.Method ≠ MethodPost then
    ⟨.responded (httpError "Only POST allowed" StatusMethodNotAllowed), s, []⟩
  else
    match env.Decode r.Body with
    | .error _ =>
      ⟨.responded (httpError "Invalid JSON" StatusBadRequest), s, []⟩
    | .ok req =>
      if req.UserID = "" ∨ req.Message = "" then
        ⟨.responded (httpError "user_id and message required" StatusBadRequest), s, []⟩
      else
        let s1 := s.append req.UserID ChatMessageRoleUser req.Message
        let messages := s1.snapshot req.UserID
        let creq : ChatCompletionRequest := ⟨modelName, messages⟩
        match env.CreateChatCompletion creq with
        | .error e =>
          ⟨.responded (httpError e StatusInternalServerError), s1, [creq]⟩
        | .ok resp =>
          match resp.Choices with
          | [] => ⟨.indexOutOfRange, s1, [creq]⟩
          | c :: _ =>
            let reply := c.Message.Content
            let s2 := s1.append req.UserID ChatMessageRoleAssistant reply
            ⟨.responded ⟨StatusOK, "application/json", .jsonLine ⟨reply⟩⟩, s2, [creq]⟩

/-! ## The JSON decoder on the request body

`json.NewDecoder(r.Body).Decode(&req)` (line 55) does two things: it scans
the next JSON value from the body, and it unmarshals that value into the
struct.  The scan is given here; the unmarshalling stays a parameter. -/

/-- White space of the JSON grammar: space (32), tab (9), line feed (10),
carriage return (13). -/
def isSpace (c : Char) : Bool :=
  c.toNat = 32 || c.toNat = 9 || c.toNat = 10 || c.toNat = 13

/-- Input with the leading white space dropped. -/
def skipSpace : List Char → List Char
  | [] => []
  | c :: cs => if isSpace c then skipSpace cs else c :: cs

/-- A decimal digit, `0` (48) to `9` (57). -/
def isDigit (c : Char) : Bool := 48 ≤ c.toNat && c.toNat ≤ 57

/-- A hexadecimal digit: a decimal digit, `a`-`f` (97-102) or `A`-`F`
(65-70). -/
def isHex (c : Char) : Bool :=
  isDigit c || (97 ≤ c.toNat && c.toNat ≤ 102) || (65 ≤ c.toNat && c.toNat ≤ 70)

/-- The characters that may follow a backslash on their own: double quote
(34), backslash (92), slash (47), `b`, `f`, `n`, `r`, `t`. -/
def isSimpleEscape (c : Char) : Bool :=
  c.toNat = 34 || c.toNat = 92 || c.toNat = 47 || c.toNat = 98 || c.toNat = 102
    || c.toNat = 110 || c.toNat = 114 || c.toNat = 116

/-- The input after the closing quote of a string whose opening quote has
been read: a double quote (34) ends the string, a backslash (92) takes a
simple escape or `u` (117) and four hexadecimal digits, and a control
character (below 32) is an error. -/
def scanString : List Char → Option (List Char)
  | [] => none
  | c :: cs =>
    if c.toNat = 34 then some cs
    else if c.toNat = 92 then
      match cs with
      | e :: rest =>
        if isSimpleEscape e then scanString rest
        else if e.toNat = 117 then
          match rest with
          | h1 :: h2 :: h3 :: h4 :: rest4 =>
            if isHex h1 && isHex h2 && isHex h3 && isHex h4 then scanString rest4 else none
          | _ => none
        else none
      | [] => none
    else if c.toNat < 32 then none
    else scanString cs

/-- Input with the leading digits dropped. -/
def skipDigits : List Char → List Char
  | [] => []
  | c :: cs => if isDigit c then skipDigits cs else c :: cs

/-- The input after one digit or more. -/
def scanDigits : List Char → Option (List Char)
  | c :: cs => if isDigit c then some (skipDigits cs) else none
  | [] => none

/-- The input after the optional exponent of a number: `e` (101) or `E` (69),
an optional sign (43, 45), one digit or more. -/
def scanExponent : List Char → Option (List Char)
  | c :: cs =>
    if c.toNat = 101 || c.toNat = 69 then
      match cs with
      | sign :: rest =>
        if sign.toNat = 43 || sign.toNat = 45 then scanDigits rest else scanDigits cs
      | [] => none
    else some (c :: cs)
  | [] => some []

/-- The input after the optional fraction of a number, a point (46) and one
digit or more, and the optional exponent. -/
def scanFraction : List Char → Option (List Char)
  | c :: cs =>
    if c.toNat = 46 then (scanDigits cs).bind scanExponent else scanExponent (c :: cs)
  | [] => some []

/-- The input after the integer part of a number, a single `0` (48) or a
non-zero digit with further digits, and what follows it. -/
def scanInteger : List Char → Option (List Char)
  | c :: cs =>
    if c.toNat = 48 then scanFraction cs
    else if isDigit c then scanFraction (skipDigits cs)
    else none
  | [] => none

/-- The input after a number: an optional minus sign (45), then the integer
part and what follows it. -/
def scanNumber : List Char → Option (List Char)
  | c :: cs => if c.toNat = 45 then scanInteger cs else scanInteger (c :: cs)
  | [] => none

/-- The input after the word `word`, which must come first. -/
def scanWord (word : List Char) (cs : List Char) : Option (List Char) :=
  if word.isPrefixOf cs then some (cs.drop word.length) else none

/-- What the scanner expects next: a value, a value or the end of an array
just opened, a key or the end of an object just opened, a key, the colon
after a key, or what follows a value inside an array or object. -/
inductive Expect where
  | value
  | valueOrClose
  | keyOrClose
  | key
  | colon
  | endValue
  deriving DecidableEq, Repr

/-- The nesting limit of the scanner of `encoding/json`. -/
def maxNestingDepth : Nat := 10000

/-- The scanner: the input that remains after one JSON value, or `none` when
the input does not start with one.  `stack` lists the arrays (`false`) and
objects (`true`) that are open, innermost first; white space is skipped
before every token; the scan stops right after the token that completes the
outermost value.  The characters tested are the opening and closing brace
(123, 125) and bracket (91, 93), the double quote (34), the colon (58), the
comma (44) and the first letters of `true`, `false`, `null` (116, 102, 110). -/
def scan : Nat → List Bool → Expect → List Char → Option (List Char)
  | 0, _, _, _ => none
  | fuel + 1, stack, expect, input =>
    let done : List Bool → List Char → Option (List Char) := fun outer rest =>
      if outer.isEmpty then some rest else scan fuel outer .endValue rest
    match expect, skipSpace input with
    | .value, c :: cs =>
      if c.toNat = 123 then
        if stack.length < maxNestingDepth then scan fuel (true :: stack) .keyOrClose cs else none
      else if c.toNat = 91 then
        if stack.length < maxNestingDepth then scan fuel (false :: stack) .valueOrClose cs
        else none
      else if c.toNat = 34 then (scanString cs).bind (done stack)
      else if c.toNat = 116 then (scanWord "true".toList (c :: cs)).bind (done stack)
      else if c.toNat = 102 then (scanWord "false".toList (c :: cs)).bind (done stack)
      else if c.toNat = 110 then (scanWord "null".toList (c :: cs)).bind (done stack)
      else (scanNumber (c :: cs)).bind (done stack)
    | .valueOrClose, c :: cs =>
      if c.toNat = 93 then done stack.tail cs else scan fuel stack .value (c :: cs)
    | .keyOrClose, c :: cs =>
      if c.toNat = 125 then done stack.tail cs else scan fuel stack .key (c :: cs)
    | .key, c :: cs =>
      if c.toNat = 34 then (scanString cs).bind (scan fuel stack .colon) else none
    | .colon, c :: cs =>
      if c.toNat = 58 then scan fuel stack .value cs else none
    | .endValue, c :: cs =>
      match stack with
      | true :: outer =>
        if c.toNat = 44 then scan fuel stack .key cs
        else if c.toNat = 125 then done outer cs
        else none
      | false :: outer =>
        if c.toNat = 44 then scan fuel stack .value cs
        else if c.toNat = 93 then done outer cs
        else none
      | [] => none
    | _, [] => none

/-- The input that remains after the first JSON value of `cs`.  A round of
`scan` reads a token or, right after an opening bracket or brace, passes on
without reading, so twice the length of the input and two rounds are
enough. -/
def scanFirst (cs : List Char) : Option (List Char) :=
  scan (2 * cs.length + 2) [] .value cs

/-- The body is well-formed JSON: one JSON value with nothing but white space
around it. -/
def wellFormedJSON (body : String) : Bool :=
  match scanFirst body.toList with
  | some rest => (skipSpace rest).isEmpty
  | none => false

/-- The text of the first JSON value of the body, without the white space
before it, or `none` when the body does not start with a JSON value. -/
def firstValue (body : String) : Option String :=
  match scanFirst body.toList with
  | some rest =>
    some (String.mk ((skipSpace body.toList).take
      ((skipSpace body.toList).length - rest.length)))
  | none => none

/-- Library call `json.NewDecoder(r.Body).Decode(&req)` on a fresh decoder:
it reads the next JSON value from the body and unmarshals that value alone;
what follows the value is left unread.  A body without a first JSON value is
a decoding error. -/
def decoderDecode (unmarshal : String → Except String ChatRequest) (body : String) :
    Except String ChatRequest :=
  match firstValue body with
  | none => .error "invalid JSON input"
  | some value => unmarshal value

/-! ## Stub collaborators for concrete runs -/

/-- The JSON text with `user_id` `u1` and `message` `hi`. -/
def bodyU1Hi : String := "\x7b\"user_id\":\"u1\",\"message\":\"hi\"\x7d"

/-- The JSON text with `user_id` `u1` and `message` `again`. -/
def bodyU1Again : String := "\x7b\"user_id\":\"u1\",\"message\":\"again\"\x7d"

/-- The JSON text with `user_id` `u1` and no `message` field. -/
def bodyU1Only : String := "\x7b\"user_id\":\"u1\"\x7d"

/-- A decoder stub that knows the three bodies above and rejects every other
body; a field that is absent from the body keeps the zero value of its Go
type, the empty string. -/
def stubDecode (body : String) : Except String ChatRequest :=
  if body = bodyU1Hi then .ok ⟨"u1", "hi"⟩
  else if body = bodyU1Again then .ok ⟨"u1", "again"⟩
  else if body = bodyU1Only then .ok ⟨"u1", ""⟩
  else .error "invalid character"

/-- A completion stub that answers every call with the single choice
`text`. -/
def stubReply (text : String) (_ : ChatCompletionRequest) :
    Except String ChatCompletionResponse :=
  .ok ⟨[⟨⟨ChatMessageRoleAssistant, text⟩⟩]⟩

/-- A completion stub that fails every call with the error text `text`. -/
def stubFail (text : String) (_ : ChatCompletionRequest) :
    Except String ChatCompletionResponse :=
  .error text

/-- A completion stub that returns no error and an empty `Choices`. -/
def stubNoChoice (_ : ChatCompletionRequest) : Except String ChatCompletionResponse :=
  .ok ⟨[]⟩

/-- The request `POST /chat` with body `bodyU1Hi`. -/
def postU1Hi : Request := ⟨"POST", bodyU1Hi⟩

/-- The request `POST /chat` with body `bodyU1Again`. -/
def postU1Again : Request := ⟨"POST", bodyU1Again⟩

/-- The request `POST /chat` with body `bodyU1Only`. -/
def postU1Only : Request := ⟨"POST", bodyU1Only⟩

/-- The request `POST /chat` with a body that is no JSON text. -/
def postGarbage : Request := ⟨"POST", "user_id=u1"⟩

/-- The request `GET /chat` with body `bodyU1Hi`. -/
def getU1Hi : Request := ⟨"GET", bodyU1Hi⟩

/-- An unmarshal stub: on the text of one JSON value, what the decoder stub
fills into the struct. -/
def stubUnmarshal (value : String) : Except String ChatRequest := stubDecode value

/-- The body `bodyU1Hi` followed by text that is no JSON. -/
def bodyU1HiTrailing : String := bodyU1Hi ++ " trailing"

/-- The request `POST /chat` with body `bodyU1HiTrailing`. -/
def postU1HiTrailing : Request := ⟨"POST", bodyU1HiTrailing⟩

/-- A store with one earlier exchange of `u1` and one of `u2`. -/
def storeTwoUsers : Store :=
  ((Store.empty.append "u1" ChatMessageRoleUser "first").append "u2"
    ChatMessageRoleUser "other").append "u1" ChatMessageRoleAssistant "answer"

/-- The status code of a run that wrote a response. -/
def Result.status : Result → Option Nat
  | .responded r => some r.status
  | .indexOutOfRange => none

/-- The body of a run that wrote a response. -/
def Result.body : Result → Option Body
  | .responded r => some r.body
  | .indexOutOfRange => none

/-- One store append as data: the user key, the role and the content. -/
structure AppendOp where
  userID : String
  role : String
  content : String
  deriving DecidableEq, Repr

/-- The message an append adds. -/
def AppendOp.message (op : AppendOp) : ChatCompletionMessage := ⟨op.role, op.content⟩

/-- A finite sequence of appends applied to a store, first to last. -/
def applyAppends (s : Store) (ops : List AppendOp) : Store :=
  ops.foldl (fun t op => t.append op.userID op.role op.content) s

/-- First of two sequential requests of `u1` on the empty store: message
`hi`, answered `hello`. -/
def firstRun : Outcome :=
  chatHandler ⟨stubDecode, stubReply "hello"⟩ Store.empty postU1Hi

/-- Second of the two requests, on the store the first one left: message
`again`, answered `welcome back`. -/
def secondRun : Outcome :=
  chatHandler ⟨stubDecode, stubReply "welcome back"⟩ firstRun.store postU1Again

/-- Three appends: two of `u1` around one of `u2`. -/
def threeAppends : List AppendOp :=
  [⟨"u1", "user", "a"⟩, ⟨"u2", "user", "b"⟩, ⟨"u1", "assistant", "c"⟩]

/-! ## The handler as interleaved steps

One worker serves one request.  The handler body is cut at the two
`mutex.Lock()`, the two `mutex.Unlock()`, every read and write of
`chatHistory`, and the completion call; workers interleave between cuts. -/

/-- Where a worker stands in the handler body: each constructor is named
after the source line that runs next and carries the local variables that are
live there (`line66w` and `line91w` sit between the map read and the map write
of the append statements of lines 66 and 91). -/
inductive PC where
  | line49 (r : Request)
  | line65 (req : ChatRequest)
  | line66 (req : ChatRequest)
  | line66w (req : ChatRequest) (old : List ChatCompletionMessage)
  | line72 (req : ChatRequest)
  | line73 (req : ChatRequest) (messages : List ChatCompletionMessage)
  | line75 (req : ChatRequest) (messages : List ChatCompletionMessage)
  | line90 (req : ChatRequest) (reply : String)
  | line91 (req : ChatRequest) (reply : String)
  | line91w (req : ChatRequest) (reply : String) (old : List ChatCompletionMessage)
  | line97 (req : ChatRequest) (reply : String)
  | line99 (reply : String)
  | finished (res : Result)
  deriving DecidableEq, Repr

/-- The worker is between a `mutex.Lock()` and the `mutex.Unlock()` that
follows it (lines 66-73 and 91-97). -/
def PC.holdsLock : PC → Bool
  | .line66 _ => true
  | .line66w _ _ => true
  | .line72 _ => true
  | .line73 _ _ => true
  | .line91 _ _ => true
  | .line91w _ _ _ => true
  | .line97 _ _ => true
  | _ => false

/-- The shared state and the workers: the map `chatHistory`, whether `mutex`
is locked, the position of every worker, and the log of completion calls made
so far (worker, argument), oldest first. -/
structure Sys where
  store : Store
  locked : Bool
  pc : Nat → PC
  calls : List (Nat × ChatCompletionRequest)

/-- Worker `w` moves to position `p`. -/
def Sys.goto (σ : Sys) (w : Nat) (p : PC) : Sys :=
  ⟨σ.store, σ.locked, fun i => if i = w then p else σ.pc i, σ.calls⟩

/-- Lines 49-63, which touch no shared state: the position after the three
checks. -/
def validate (env : Env) (r : Request) : PC :=
  if r.Method ≠ MethodPost then
    .finished (.responded (httpError "Only POST allowed" StatusMethodNotAllowed))
  else
    match env.Decode r.Body with
    | .error _ => .finished (.responded (httpError "Invalid JSON" StatusBadRequest))
    | .ok req =>
      if req.UserID = "" ∨ req.Message = "" then
        .finished (.responded (httpError "user_id and message required" StatusBadRequest))
      else .line65 req

/-- Lines 75-88, which touch no shared state: the position after the
completion call has returned `res`. -/
def afterCompletion (req : ChatRequest) (res : Except String ChatCompletionResponse) : PC :=
  match res with
  | .error e => .finished (.responded (httpError e StatusInternalServerError))
  | .ok resp =>
    match resp.Choices with
    | [] => .finished .indexOutOfRange
    | c :: _ => .line90 req c.Message.Content

/-- One step of worker `w`, or `none` when `w` cannot move: it waits in
`mutex.Lock()` while the mutex is locked, or it has finished. -/
def step (env : Env) (σ : Sys) (w : Nat) : Option Sys :=
  match σ.pc w with
  | .line49 r => some (σ.goto w (validate env r))
  | .line65 req =>
    if σ.locked then none else some (Sys.goto ⟨σ.store, true, σ.pc, σ.calls⟩ w (.line66 req))
  | .line66 req => some (σ.goto w (.line66w req (σ.store.index req.UserID)))
  | .line66w req old =>
    some (Sys.goto ⟨σ.store.assign req.UserID (old ++ [⟨ChatMessageRoleUser, req.Message⟩]),
      σ.locked, σ.pc, σ.calls⟩ w (.line72 req))
  | .line72 req => some (σ.goto w (.line73 req (σ.store.index req.UserID)))
  | .line73 req messages => some (Sys.goto ⟨σ.store, false, σ.pc, σ.calls⟩ w (.line75 req messages))
  | .line75 req messages =>
    some (Sys.goto ⟨σ.store, σ.locked, σ.pc, σ.calls ++ [(w, ⟨modelName, messages⟩)]⟩ w
      (afterCompletion req (env.CreateChatCompletion ⟨modelName, messages⟩)))
  | .line90 req reply =>
    if σ.locked then none else some (Sys.goto ⟨σ.store, true, σ.pc, σ.calls⟩ w (.line91 req reply))
  | .line91 req reply => some (σ.goto w (.line91w req reply (σ.store.index req.UserID)))
  | .line91w req reply old =>
    some (Sys.goto ⟨σ.store.assign req.UserID (old ++ [⟨ChatMessageRoleAssistant, reply⟩]),
      σ.locked, σ.pc, σ.calls⟩ w (.line97 req reply))
  | .line97 _ reply => some (Sys.goto ⟨σ.store, false, σ.pc, σ.calls⟩ w (.line99 reply))
  | .line99 reply =>
    some (σ.goto w (.finished (.responded ⟨StatusOK, "application/json", .jsonLine ⟨reply⟩⟩)))
  | .finished _ => none

/-- The steps of a schedule (a list of worker numbers) taken in order, or
`none` when a scheduled worker cannot move. -/
def run (env : Env) : Sys → List Nat → Option Sys
  | σ, [] => some σ
  | σ, w :: rest =>
    match step env σ w with
    | none => none
    | some τ => run env τ rest

/-- The state in which worker `i` has just received request `reqs i`, the
mutex is unlocked and no completion call has been made. -/
def Sys.start (s : Store) (reqs : Nat → Request) : Sys :=
  ⟨s, false, fun i => .line49 (reqs i), []⟩

/-- The states that the workers can reach from a start state. -/
inductive Reachable (env : Env) : Sys → Prop where
  | start (s : Store) (reqs : Nat → Request) : Reachable env (Sys.start s reqs)
  | step {σ τ : Sys} (w : Nat) : Reachable env σ → step env σ w = some τ → Reachable env τ

/-- What a worker has read from the map inside its locked section is still
what the map holds: at `line66w` and `line91w` the value read for the append,
at `line73` the snapshot `messages`. -/
def PC.readOK (s : Store) : PC → Prop
  | .line66w req old => s.index req.UserID = old
  | .line73 req messages => s.index req.UserID = messages
  | .line91w req _ old => s.index req.UserID = old
  | _ => True

/-- The lock invariant: at most one worker is between a `Lock` and its
`Unlock`, the mutex is locked exactly when there is one, and what that worker
has read from the map is current. -/
structure LockInv (σ : Sys) : Prop where
  excl : ∀ i j, (σ.pc i).holdsLock = true → (σ.pc j).holdsLock = true → i = j
  held : σ.locked = true ↔ ∃ i, (σ.pc i).holdsLock = true
  reads : ∀ i, (σ.pc i).readOK σ.store

/-- Two requests of the same user `u1`: worker 0 holds `postU1Hi`, every other
worker `postU1Again`. -/
def sameUserStart : Sys :=
  Sys.start Store.empty (fun i => if i = 0 then postU1Hi else postU1Again)

/-- A schedule in which worker 0 and worker 1 both append their user message
and take their snapshot before either completion call returns. -/
def overlapSchedule : List Nat :=
  [0, 0, 0, 0, 0, 0, 1, 1, 1, 1, 1, 1, 0, 1, 0, 0, 0, 0, 0, 1, 1, 1, 1, 1]

/-- The schedule that takes worker 0 up to its completion call. -/
def untilCallSchedule : List Nat := [0, 0, 0, 0, 0, 0]

/-- The state of `sameUserStart` after `untilCallSchedule`: worker 0 is at its
completion call, worker 1 has not started. -/
def stateAtCall : Sys :=
  (run ⟨stubDecode, stubReply "hello"⟩ sameUserStart untilCallSchedule).getD sameUserStart

/-! ## Store lemmas -/

theorem Store.index_assign_same (s : Store) (k : String) (v : List ChatCompletionMessage) :
    (s.assign k v).index k = v := by
  simp [Store.index, Store.assign]

theorem Store.index_assign_other (s : Store) (k j : String) (v : List ChatCompletionMessage)
    (h : j ≠ k) : (s.assign k v).index j = s.index j := by
  simp [Store.index, Store.assign, h]

theorem Store.assign_assign (s : Store) (k : String) (v w : List ChatCompletionMessage) :
    (s.assign k v).assign k w = s.assign k w := by
  funext j
  by_cases h : j = k <;> simp [Store.assign, h]

theorem Store.snapshot_append_same (s : Store) (uid role content : String) :
    (s.append uid role content).snapshot uid = s.snapshot uid ++ [⟨role, content⟩] := by
  simp [Store.snapshot, Store.append, Store.index_assign_same]

theorem Store.snapshot_append_other (s : Store) (uid role content other : String)
    (h : other ≠ uid) :
    (s.append uid role content).snapshot other = s.snapshot other := by
  simp [Store.snapshot, Store.append, Store.index_assign_other _ _ _ _ h]

theorem Store.append_append (s : Store) (uid r1 c1 r2 c2 : String) :
    (s.append uid r1 c1).append uid r2 c2
      = s.assign uid (s.index uid ++ [⟨r1, c1⟩, ⟨r2, c2⟩]) := by
  simp [Store.append, Store.index_assign_same, Store.assign_assign]

/-- The handler on a validated POST request, as a function of the completion
result alone. -/
theorem chatHandler_validated (env : Env) (s : Store) (r : Request) (req : ChatRequest)
    (hm : r.Method = MethodPost) (hd : env.Decode r.Body = .ok req)
    (hu : req.UserID ≠ "") (hmsg : req.Message ≠ "") :
    chatHandler env s r =
      match env.CreateChatCompletion
          ⟨modelName, (s.append req.UserID ChatMessageRoleUser req.Message).snapshot req.UserID⟩ with
      | .error e =>
        ⟨.responded (httpError e StatusInternalServerError),
          s.append req.UserID ChatMessageRoleUser req.Message,
          [⟨modelName, (s.append req.UserID ChatMessageRoleUser req.Message).snapshot req.UserID⟩]⟩
      | .ok resp =>
        match resp.Choices with
        | [] =>
          ⟨.indexOutOfRange, s.append req.UserID ChatMessageRoleUser req.Message,
            [⟨modelName, (s.append req.UserID ChatMessageRoleUser req.Message).snapshot req.UserID⟩]⟩
        | c :: _ =>
          ⟨.responded ⟨StatusOK, "application/json", .jsonLine ⟨c.Message.Content⟩⟩,
            (s.append req.UserID ChatMessageRoleUser req.Message).append req.UserID
              ChatMessageRoleAssistant c.Message.Content,
            [⟨modelName, (s.append req.UserID ChatMessageRoleUser req.Message).snapshot req.UserID⟩]⟩ := by
  unfold chatHandler
  simp [hm, hd, hu, hmsg]

/-- The whole outcome of a validated POST request whose completion call
returns a response with a first choice. -/
theorem chatHandler_ok (env : Env) (s : Store) (r : Request) (req : ChatRequest)
    (resp : ChatCompletionResponse) (c : ChatCompletionChoice)
    (rest : List ChatCompletionChoice)
    (hm : r.Method = MethodPost) (hd : env.Decode r.Body = .ok req)
    (hu : req.UserID ≠ "") (hmsg : req.Message ≠ "")
    (hc : env.CreateChatCompletion
        ⟨modelName, s.snapshot req.UserID ++ [⟨ChatMessageRoleUser, req.Message⟩]⟩ = .ok resp)
    (hch : resp.Choices = c :: rest) :
    chatHandler env s r =
      ⟨.responded ⟨200, "application/json", .jsonLine ⟨c.Message.Content⟩⟩,
        s.assign req.UserID (s.snapshot req.UserID ++
          [⟨ChatMessageRoleUser, req.Message⟩, ⟨ChatMessageRoleAssistant, c.Message.Content⟩]),
        [⟨modelName, s.snapshot req.UserID ++ [⟨ChatMessageRoleUser, req.Message⟩]⟩]⟩ := by
  rw [chatHandler_validated env s r req hm hd hu hmsg, Store.snapshot_append_same, hc]
  simp only [hch, Store.append_append]
  rfl

/-! ## The claims -/

/-- C1. Success path: for every store, every POST request that decodes to a
non-empty user_id `u` and non-empty message `m`, and every completion result
without error whose first choice has content `r`, the handler answers status
200 with JSON content type and body `ChatResponse{Reply: r}`, makes the one
completion call, and the store afterwards is the store before with `u` bound
to the old conversation of `u` followed by `(user, m)`, `(assistant, r)`; every
other key is untouched. -/
theorem chat_success (env : Env) (s : Store) (r : Request) (req : ChatRequest)
    (resp : ChatCompletionResponse) (c : ChatCompletionChoice)
    (rest : List ChatCompletionChoice)
    (hm : r.Method = MethodPost) (hd : env.Decode r.Body = .ok req)
    (hu : req.UserID ≠ "") (hmsg : req.Message ≠ "")
    (hc : env.CreateChatCompletion
        ⟨modelName, s.snapshot req.UserID ++ [⟨ChatMessageRoleUser, req.Message⟩]⟩ = .ok resp)
    (hch : resp.Choices = c :: rest) :
    (chatHandler env s r).result
        = .responded ⟨200, "application/json", .jsonLine ⟨c.Message.Content⟩⟩
      ∧ (chatHandler env s r).store
        = s.assign req.UserID (s.snapshot req.UserID ++
            [⟨ChatMessageRoleUser, req.Message⟩, ⟨ChatMessageRoleAssistant, c.Message.Content⟩])
      ∧ (chatHandler env s r).store.snapshot req.UserID
        = s.snapshot req.UserID ++
            [⟨ChatMessageRoleUser, req.Message⟩, ⟨ChatMessageRoleAssistant, c.Message.Content⟩]
      ∧ ∀ other, other ≠ req.UserID → (chatHandler env s r).store other = s other := by
  rw [chatHandler_ok env s r req resp c rest hm hd hu hmsg hc hch]
  refine ⟨rfl, rfl, ?_, ?_⟩
  · simp [Store.snapshot, Store.index_assign_same]
  · intro other h
    simp [Store.assign, h]

/-- The run of the spec's end-to-end example: empty store, user `u1`, message
`hi`, completion stub answering `hello`. -/
theorem chat_success_witness :
    postU1Hi.Method = MethodPost
      ∧ stubDecode postU1Hi.Body = .ok ⟨"u1", "hi"⟩
      ∧ (chatHandler ⟨stubDecode, stubReply "hello"⟩ Store.empty postU1Hi).result
        = .responded ⟨200, "application/json", .jsonLine ⟨"hello"⟩⟩
      ∧ (chatHandler ⟨stubDecode, stubReply "hello"⟩ Store.empty postU1Hi).store.snapshot "u1"
        = [⟨"user", "hi"⟩, ⟨"assistant", "hello"⟩] :=
  have h := chat_success ⟨stubDecode, stubReply "hello"⟩ Store.empty postU1Hi ⟨"u1", "hi"⟩
    ⟨[⟨⟨ChatMessageRoleAssistant, "hello"⟩⟩]⟩ ⟨⟨ChatMessageRoleAssistant, "hello"⟩⟩ []
    (by decide) rfl (by decide) (by decide) rfl rfl
  ⟨by decide, rfl, h.1, h.2.2.1⟩

/-- C2. Completion failure path: for every store and every POST request that
decodes to a non-empty user_id `u` and non-empty message `m`, when the
completion call returns the error `e` the handler answers status 500 with
body `e` (and a line feed), and the store afterwards is the store before with
exactly `(user, m)` appended to the conversation of `u`; every other key is
untouched, and from an empty conversation of `u` the conversation afterwards
is `[(user, m)]` alone. -/
theorem chat_completion_failure (env : Env) (s : Store) (r : Request) (req : ChatRequest)
    (e : String)
    (hm : r.Method = MethodPost) (hd : env.Decode r.Body = .ok req)
    (hu : req.UserID ≠ "") (hmsg : req.Message ≠ "")
    (hc : env.CreateChatCompletion
        ⟨modelName, s.snapshot req.UserID ++ [⟨ChatMessageRoleUser, req.Message⟩]⟩ = .error e) :
    (chatHandler env s r).result
        = .responded ⟨500, "text/plain; charset=utf-8", .raw (e ++ "\n")⟩
      ∧ (chatHandler env s r).store
        = s.assign req.UserID (s.snapshot req.UserID ++ [⟨ChatMessageRoleUser, req.Message⟩])
      ∧ (chatHandler env s r).store.snapshot req.UserID
        = s.snapshot req.UserID ++ [⟨ChatMessageRoleUser, req.Message⟩]
      ∧ (∀ other, other ≠ req.UserID → (chatHandler env s r).store other = s other)
      ∧ (s.snapshot req.UserID = [] →
          (chatHandler env s r).store.snapshot req.UserID
            = [⟨ChatMessageRoleUser, req.Message⟩]) := by
  rw [chatHandler_validated env s r req hm hd hu hmsg, Store.snapshot_append_same, hc]
  refine ⟨rfl, rfl, ?_, ?_, ?_⟩
  · simp [Store.snapshot_append_same]
  · intro other h
    simp [Store.append, Store.assign, h]
  · intro h
    simp [Store.snapshot_append_same, h]

/-- A failing completion on the first message of `u1`. -/
theorem chat_completion_failure_witness :
    postU1Hi.Method = MethodPost
      ∧ stubDecode postU1Hi.Body = .ok ⟨"u1", "hi"⟩
      ∧ (chatHandler ⟨stubDecode, stubFail "upstream down"⟩ Store.empty postU1Hi).result
        = .responded ⟨500, "text/plain; charset=utf-8", .raw "upstream down\n"⟩
      ∧ (chatHandler ⟨stubDecode, stubFail "upstream down"⟩ Store.empty postU1Hi).store.snapshot
          "u1" = [⟨"user", "hi"⟩] :=
  have h := chat_completion_failure ⟨stubDecode, stubFail "upstream down"⟩ Store.empty
    postU1Hi ⟨"u1", "hi"⟩ "upstream down" (by decide) rfl (by decide) (by decide) rfl
  ⟨by decide, rfl, h.1, h.2.2.2.2 rfl⟩

/-- C3 as amended. Bad-input rejection: for every store and every POST
request whose body the decoder rejects, or whose decoded user_id is empty, or
whose decoded message is empty (an absent field decodes to the empty string),
the handler answers status 400, makes no completion call, and leaves the
store as it was. -/
theorem chat_bad_input (env : Env) (s : Store) (r : Request)
    (hm : r.Method = MethodPost)
    (hbad : (∃ e, env.Decode r.Body = .error e)
      ∨ ∃ req, env.Decode r.Body = .ok req ∧ (req.UserID = "" ∨ req.Message = "")) :
    (∃ resp, (chatHandler env s r).result = .responded resp ∧ resp.status = 400)
      ∧ (chatHandler env s r).calls = []
      ∧ (chatHandler env s r).store = s := by
  unfold chatHandler
  rcases hbad with ⟨e, he⟩ | ⟨req, hd, hempty⟩
  · simp [hm, he, httpError, StatusBadRequest]
  · simp [hm, hd, hempty, httpError, StatusBadRequest]

/-- A body without a `message` field, and a body that is no JSON text, on a
store that already holds conversations. -/
theorem chat_bad_input_witness :
    (postU1Only.Method = MethodPost
      ∧ stubDecode postU1Only.Body = .ok ⟨"u1", ""⟩
      ∧ (∃ resp, (chatHandler ⟨stubDecode, stubReply "hello"⟩ storeTwoUsers postU1Only).result
            = .responded resp ∧ resp.status = 400)
      ∧ (chatHandler ⟨stubDecode, stubReply "hello"⟩ storeTwoUsers postU1Only).calls = []
      ∧ (chatHandler ⟨stubDecode, stubReply "hello"⟩ storeTwoUsers postU1Only).store
          = storeTwoUsers)
    ∧ (postGarbage.Method = MethodPost
      ∧ stubDecode postGarbage.Body = .error "invalid character"
      ∧ (∃ resp, (chatHandler ⟨stubDecode, stubReply "hello"⟩ storeTwoUsers postGarbage).result
            = .responded resp ∧ resp.status = 400)
      ∧ (chatHandler ⟨stubDecode, stubReply "hello"⟩ storeTwoUsers postGarbage).calls = []
      ∧ (chatHandler ⟨stubDecode, stubReply "hello"⟩ storeTwoUsers postGarbage).store
          = storeTwoUsers) :=
  ⟨⟨by decide, rfl,
      chat_bad_input ⟨stubDecode, stubReply "hello"⟩ storeTwoUsers postU1Only (by decide)
        (Or.inr ⟨⟨"u1", ""⟩, rfl, Or.inr rfl⟩)⟩,
    ⟨by decide, rfl,
      chat_bad_input ⟨stubDecode, stubReply "hello"⟩ storeTwoUsers postGarbage (by decide)
        (Or.inl ⟨"invalid character", rfl⟩)⟩⟩

/-- A body that does not start with a JSON value is a decoding error, whatever
the unmarshalling does. -/
theorem decoderDecode_of_no_value (unmarshal : String → Except String ChatRequest)
    (body : String) (h : firstValue body = none) :
    ∃ e, decoderDecode unmarshal body = .error e := by
  unfold decoderDecode
  rw [h]
  exact ⟨_, rfl⟩

/-- C3 as stated fails: the body `bodyU1HiTrailing` is not well-formed JSON,
since text follows its one JSON value, yet the decoder reads that value and
stops, so the POST request is answered 200, the completion call is made and
the store of `u1` grows by the user message and the reply. -/
theorem chat_bad_input_counterexample :
    postU1HiTrailing.Method = MethodPost
      ∧ wellFormedJSON bodyU1Hi = true
      ∧ wellFormedJSON postU1HiTrailing.Body = false
      ∧ firstValue postU1HiTrailing.Body = some bodyU1Hi
      ∧ (chatHandler ⟨decoderDecode stubUnmarshal, stubReply "hello"⟩ Store.empty
            postU1HiTrailing).result
          = .responded ⟨200, "application/json", .jsonLine ⟨"hello"⟩⟩
      ∧ (chatHandler ⟨decoderDecode stubUnmarshal, stubReply "hello"⟩ Store.empty
            postU1HiTrailing).calls
          = [⟨"llama-3.1-8b-instant", [⟨"user", "hi"⟩]⟩]
      ∧ (chatHandler ⟨decoderDecode stubUnmarshal, stubReply "hello"⟩ Store.empty
            postU1HiTrailing).store.snapshot "u1"
          = [⟨"user", "hi"⟩, ⟨"assistant", "hello"⟩]
      ∧ ¬ ((∃ resp, (chatHandler ⟨decoderDecode stubUnmarshal, stubReply "hello"⟩ Store.empty
              postU1HiTrailing).result = .responded resp ∧ resp.status = 400)
          ∧ (chatHandler ⟨decoderDecode stubUnmarshal, stubReply "hello"⟩ Store.empty
              postU1HiTrailing).calls = []
          ∧ (chatHandler ⟨decoderDecode stubUnmarshal, stubReply "hello"⟩ Store.empty
              postU1HiTrailing).store = Store.empty) := by
  have hcalls : (chatHandler ⟨decoderDecode stubUnmarshal, stubReply "hello"⟩ Store.empty
      postU1HiTrailing).calls = [⟨"llama-3.1-8b-instant", [⟨"user", "hi"⟩]⟩] := by decide
  refine ⟨by decide, by decide, by decide, by decide, by decide, hcalls, by decide, ?_⟩
  rintro ⟨-, hnone, -⟩
  rw [hcalls] at hnone
  cases hnone

/-- C4. Wrong-method rejection: for every store, every decoder and completion
client, and every request whose method is not POST, whatever its body, the
handler answers status 405 with text `Only POST allowed`, makes no completion
call, and leaves the store as it was. -/
theorem chat_wrong_method (env : Env) (s : Store) (r : Request)
    (hm : r.Method ≠ MethodPost) :
    (chatHandler env s r).result
        = .responded ⟨405, "text/plain; charset=utf-8", .raw "Only POST allowed\n"⟩
      ∧ (chatHandler env s r).calls = []
      ∧ (chatHandler env s r).store = s := by
  unfold chatHandler
  simp [hm, httpError, StatusMethodNotAllowed]

/-- A GET request whose body would pass every body check. -/
theorem chat_wrong_method_witness :
    getU1Hi.Method ≠ MethodPost
      ∧ stubDecode getU1Hi.Body = .ok ⟨"u1", "hi"⟩
      ∧ (chatHandler ⟨stubDecode, stubReply "hello"⟩ storeTwoUsers getU1Hi).result
        = .responded ⟨405, "text/plain; charset=utf-8", .raw "Only POST allowed\n"⟩
      ∧ (chatHandler ⟨stubDecode, stubReply "hello"⟩ storeTwoUsers getU1Hi).calls = []
      ∧ (chatHandler ⟨stubDecode, stubReply "hello"⟩ storeTwoUsers getU1Hi).store
          = storeTwoUsers :=
  ⟨by decide, rfl,
    chat_wrong_method ⟨stubDecode, stubReply "hello"⟩ storeTwoUsers getU1Hi (by decide)⟩

/-- C5. What the completion call sees: for every store `s` and every POST
request that decodes to a non-empty user_id `u` and non-empty message `m`,
whatever the completion client answers, exactly one completion call is made
and its message sequence is the conversation of `u` in `s`, in order, followed
by `(user, m)`; a store `t` that agrees with `s` on the conversation of `u`
gives the same completion input, whatever the other users' entries hold and
whichever client is called. -/
theorem chat_completion_input (dec : String → Except String ChatRequest)
    (cc cc2 : ChatCompletionRequest → Except String ChatCompletionResponse)
    (s t : Store) (r : Request) (req : ChatRequest)
    (hm : r.Method = MethodPost) (hd : dec r.Body = .ok req)
    (hu : req.UserID ≠ "") (hmsg : req.Message ≠ "")
    (hst : t.snapshot req.UserID = s.snapshot req.UserID) :
    (chatHandler ⟨dec, cc⟩ s r).calls
        = [⟨modelName, s.snapshot req.UserID ++ [⟨ChatMessageRoleUser, req.Message⟩]⟩]
      ∧ (chatHandler ⟨dec, cc2⟩ t r).calls = (chatHandler ⟨dec, cc⟩ s r).calls := by
  have key : ∀ (c : ChatCompletionRequest → Except String ChatCompletionResponse)
      (x : Store), (chatHandler ⟨dec, c⟩ x r).calls
        = [⟨modelName, x.snapshot req.UserID ++ [⟨ChatMessageRoleUser, req.Message⟩]⟩] := by
    intro c x
    rw [chatHandler_validated ⟨dec, c⟩ x r req hm hd hu hmsg, Store.snapshot_append_same]
    split
    · rfl
    · split <;> rfl
  rw [key cc s, key cc2 t, hst]
  exact ⟨rfl, rfl⟩

/-- The stores `storeTwoUsers` and its restriction to `u1` give the same
completion input for a message of `u1`, and it holds no message of `u2`. -/
theorem chat_completion_input_witness :
    postU1Hi.Method = MethodPost
      ∧ stubDecode postU1Hi.Body = .ok ⟨"u1", "hi"⟩
      ∧ ((Store.empty.append "u1" ChatMessageRoleUser "first").append "u1"
            ChatMessageRoleAssistant "answer").snapshot "u1" = storeTwoUsers.snapshot "u1"
      ∧ (chatHandler ⟨stubDecode, stubReply "hello"⟩ storeTwoUsers postU1Hi).calls
        = [⟨"llama-3.1-8b-instant",
            [⟨"user", "first"⟩, ⟨"assistant", "answer"⟩, ⟨"user", "hi"⟩]⟩]
      ∧ (chatHandler ⟨stubDecode, stubFail "upstream down"⟩
            ((Store.empty.append "u1" ChatMessageRoleUser "first").append "u1"
              ChatMessageRoleAssistant "answer") postU1Hi).calls
        = (chatHandler ⟨stubDecode, stubReply "hello"⟩ storeTwoUsers postU1Hi).calls :=
  ⟨by decide, rfl, by decide,
    chat_completion_input stubDecode (stubReply "hello") (stubFail "upstream down")
      storeTwoUsers
      ((Store.empty.append "u1" ChatMessageRoleUser "first").append "u1"
        ChatMessageRoleAssistant "answer")
      postU1Hi ⟨"u1", "hi"⟩ (by decide) rfl (by decide) (by decide) (by decide)⟩

/-- C10. Totality on the completion result: for every store and every POST
request that decodes to a non-empty user_id and non-empty message, an error
from the completion call ends in a 500 response, an error-free response with
at least one choice ends in a 200 response whose reply is the content of the
first choice, the read of `Choices[0]` is out of range exactly when the call
returns no error and an empty `Choices`, and in that case the store afterwards
is the store before with the user message appended and nothing else. -/
theorem chat_totality (env : Env) (s : Store) (r : Request) (req : ChatRequest)
    (hm : r.Method = MethodPost) (hd : env.Decode r.Body = .ok req)
    (hu : req.UserID ≠ "") (hmsg : req.Message ≠ "") :
    (∀ e, env.CreateChatCompletion
          ⟨modelName, s.snapshot req.UserID ++ [⟨ChatMessageRoleUser, req.Message⟩]⟩ = .error e →
        (chatHandler env s r).result = .responded (httpError e 500))
      ∧ (∀ resp c rest, env.CreateChatCompletion
          ⟨modelName, s.snapshot req.UserID ++ [⟨ChatMessageRoleUser, req.Message⟩]⟩ = .ok resp →
        resp.Choices = c :: rest →
        (chatHandler env s r).result
          = .responded ⟨200, "application/json", .jsonLine ⟨c.Message.Content⟩⟩)
      ∧ ((chatHandler env s r).result = .indexOutOfRange ↔
          ∃ resp, env.CreateChatCompletion
            ⟨modelName, s.snapshot req.UserID ++ [⟨ChatMessageRoleUser, req.Message⟩]⟩ = .ok resp
            ∧ resp.Choices = [])
      ∧ ((chatHandler env s r).result = .indexOutOfRange →
          (chatHandler env s r).store = s.append req.UserID ChatMessageRoleUser req.Message
          ∧ (chatHandler env s r).store.snapshot req.UserID
            = s.snapshot req.UserID ++ [⟨ChatMessageRoleUser, req.Message⟩]) := by
  rw [chatHandler_validated env s r req hm hd hu hmsg, Store.snapshot_append_same]
  cases hc : env.CreateChatCompletion
      ⟨modelName, s.snapshot req.UserID ++ [⟨ChatMessageRoleUser, req.Message⟩]⟩ with
  | error e =>
    refine ⟨?_, ?_, ⟨?_, ?_⟩, ?_⟩
    · intro e2 h
      cases h
      rfl
    · intro resp c rest h
      cases h
    · intro h
      cases h
    · rintro ⟨resp, h, _⟩
      cases h
    · intro h
      cases h
  | ok resp =>
    cases hch : resp.Choices with
    | nil =>
      simp only [hch]
      refine ⟨?_, ?_, ⟨fun _ => ⟨resp, rfl, hch⟩, fun _ => trivial⟩,
        fun _ => ⟨trivial, Store.snapshot_append_same _ _ _ _⟩⟩
      · intro e h
        cases h
      · intro resp2 c rest h hc2
        cases h
        rw [hch] at hc2
        cases hc2
    | cons c0 rest =>
      simp only [hch]
      refine ⟨?_, ?_, ⟨?_, ?_⟩, ?_⟩
      · intro e h
        cases h
      · intro resp2 c rest2 h hc2
        cases h
        rw [hch] at hc2
        cases hc2
        rfl
      · intro h
        cases h
      · rintro ⟨resp2, h, hc2⟩
        cases h
        rw [hch] at hc2
        cases hc2
      · intro h
        cases h

/-- An error-free completion result without choices on the first message of
`u1`. -/
theorem chat_totality_witness :
    postU1Hi.Method = MethodPost
      ∧ stubDecode postU1Hi.Body = .ok ⟨"u1", "hi"⟩
      ∧ (chatHandler ⟨stubDecode, stubNoChoice⟩ Store.empty postU1Hi).result = .indexOutOfRange
      ∧ (chatHandler ⟨stubDecode, stubNoChoice⟩ Store.empty postU1Hi).store.snapshot "u1"
        = [⟨"user", "hi"⟩] :=
  have h := chat_totality ⟨stubDecode, stubNoChoice⟩ Store.empty postU1Hi ⟨"u1", "hi"⟩
    (by decide) rfl (by decide) (by decide)
  have hp := h.2.2.1.mpr ⟨⟨[]⟩, rfl, rfl⟩
  ⟨by decide, rfl, hp, (h.2.2.2 hp).2⟩

/-- The store after a sequence of appends, read at one user: the earlier
conversation followed by the appended messages of that user, in order. -/
theorem applyAppends_snapshot (ops : List AppendOp) (s : Store) (u : String) :
    (applyAppends s ops).snapshot u
      = s.snapshot u ++ (ops.filter (fun op => op.userID = u)).map AppendOp.message := by
  induction ops generalizing s with
  | nil => simp [applyAppends]
  | cons op rest ih =>
    have hstep : applyAppends s (op :: rest)
        = applyAppends (s.append op.userID op.role op.content) rest := rfl
    rw [hstep, ih]
    by_cases h : op.userID = u
    · subst h
      simp [Store.snapshot_append_same, AppendOp.message]
    · have h2 : u ≠ op.userID := fun e => h e.symm
      simp [Store.snapshot_append_other _ _ _ _ _ h2, h]

/-- C6 as amended. Two sequential requests of one user: from an empty
conversation of `u`, when two POST requests of `u` with non-empty messages
`m1`, `m2` are handled one after the other and the completion calls succeed
with first choices `c1`, `c2`, the first call receives `[(user, m1)]`, the
second call receives the three messages `(user, m1)`, `(assistant, c1)`,
`(user, m2)` in that order, and the conversation of `u` after the second
request is those three followed by `(assistant, c2)`. -/
theorem chat_two_requests (dec : String → Except String ChatRequest)
    (cc1 cc2 : ChatCompletionRequest → Except String ChatCompletionResponse)
    (s : Store) (r1 r2 : Request) (u m1 m2 : String)
    (resp1 resp2 : ChatCompletionResponse) (c1 c2 : ChatCompletionChoice)
    (rest1 rest2 : List ChatCompletionChoice)
    (hs : s.snapshot u = [])
    (hm1 : r1.Method = MethodPost) (hd1 : dec r1.Body = .ok ⟨u, m1⟩)
    (hm2 : r2.Method = MethodPost) (hd2 : dec r2.Body = .ok ⟨u, m2⟩)
    (hu : u ≠ "") (hne1 : m1 ≠ "") (hne2 : m2 ≠ "")
    (hc1 : cc1 ⟨modelName, [⟨ChatMessageRoleUser, m1⟩]⟩ = .ok resp1)
    (hch1 : resp1.Choices = c1 :: rest1)
    (hc2 : cc2 ⟨modelName, [⟨ChatMessageRoleUser, m1⟩,
        ⟨ChatMessageRoleAssistant, c1.Message.Content⟩, ⟨ChatMessageRoleUser, m2⟩]⟩ = .ok resp2)
    (hch2 : resp2.Choices = c2 :: rest2) :
    (chatHandler ⟨dec, cc1⟩ s r1).calls = [⟨modelName, [⟨ChatMessageRoleUser, m1⟩]⟩]
      ∧ (chatHandler ⟨dec, cc2⟩ (chatHandler ⟨dec, cc1⟩ s r1).store r2).calls
        = [⟨modelName, [⟨ChatMessageRoleUser, m1⟩,
            ⟨ChatMessageRoleAssistant, c1.Message.Content⟩, ⟨ChatMessageRoleUser, m2⟩]⟩]
      ∧ (chatHandler ⟨dec, cc2⟩ (chatHandler ⟨dec, cc1⟩ s r1).store r2).result
        = .responded ⟨200, "application/json", .jsonLine ⟨c2.Message.Content⟩⟩
      ∧ (chatHandler ⟨dec, cc2⟩ (chatHandler ⟨dec, cc1⟩ s r1).store r2).store.snapshot u
        = [⟨ChatMessageRoleUser, m1⟩, ⟨ChatMessageRoleAssistant, c1.Message.Content⟩,
            ⟨ChatMessageRoleUser, m2⟩, ⟨ChatMessageRoleAssistant, c2.Message.Content⟩] := by
  have hc1' : (⟨dec, cc1⟩ : Env).CreateChatCompletion
      ⟨modelName, s.snapshot (⟨u, m1⟩ : ChatRequest).UserID
        ++ [⟨ChatMessageRoleUser, (⟨u, m1⟩ : ChatRequest).Message⟩]⟩ = .ok resp1 := by
    simpa [hs] using hc1
  have h1 := chatHandler_ok ⟨dec, cc1⟩ s r1 ⟨u, m1⟩ resp1 c1 rest1 hm1 hd1 hu hne1 hc1' hch1
  simp only [hs, List.nil_append] at h1
  have hsnap1 : (chatHandler ⟨dec, cc1⟩ s r1).store.snapshot u
      = [⟨ChatMessageRoleUser, m1⟩, ⟨ChatMessageRoleAssistant, c1.Message.Content⟩] := by
    rw [h1]
    simp [Store.snapshot, Store.index_assign_same]
  have hc2' : (⟨dec, cc2⟩ : Env).CreateChatCompletion
      ⟨modelName, (chatHandler ⟨dec, cc1⟩ s r1).store.snapshot (⟨u, m2⟩ : ChatRequest).UserID
        ++ [⟨ChatMessageRoleUser, (⟨u, m2⟩ : ChatRequest).Message⟩]⟩ = .ok resp2 := by
    simpa [hsnap1] using hc2
  have h2 := chatHandler_ok ⟨dec, cc2⟩ (chatHandler ⟨dec, cc1⟩ s r1).store r2 ⟨u, m2⟩
    resp2 c2 rest2 hm2 hd2 hu hne2 hc2' hch2
  simp only [hsnap1, List.cons_append, List.nil_append] at h2
  refine ⟨?_, ?_, ?_, ?_⟩
  · rw [h1]
  · rw [h2]
  · rw [h2]
  · rw [h2]
    simp [Store.snapshot, Store.index_assign_same]

/-- The two sequential requests `firstRun`, `secondRun` of `u1`. -/
theorem chat_two_requests_witness :
    Store.empty.snapshot "u1" = []
      ∧ stubDecode postU1Hi.Body = .ok ⟨"u1", "hi"⟩
      ∧ stubDecode postU1Again.Body = .ok ⟨"u1", "again"⟩
      ∧ secondRun.calls
        = [⟨"llama-3.1-8b-instant",
            [⟨"user", "hi"⟩, ⟨"assistant", "hello"⟩, ⟨"user", "again"⟩]⟩]
      ∧ secondRun.store.snapshot "u1"
        = [⟨"user", "hi"⟩, ⟨"assistant", "hello"⟩, ⟨"user", "again"⟩,
            ⟨"assistant", "welcome back"⟩] :=
  have h := chat_two_requests stubDecode (stubReply "hello") (stubReply "welcome back")
    Store.empty postU1Hi postU1Again "u1" "hi" "again"
    ⟨[⟨⟨ChatMessageRoleAssistant, "hello"⟩⟩]⟩ ⟨[⟨⟨ChatMessageRoleAssistant, "welcome back"⟩⟩]⟩
    ⟨⟨ChatMessageRoleAssistant, "hello"⟩⟩ ⟨⟨ChatMessageRoleAssistant, "welcome back"⟩⟩ [] []
    rfl (by decide) rfl (by decide) rfl (by decide) (by decide) (by decide) rfl rfl rfl rfl
  ⟨rfl, rfl, rfl, h.2.1, h.2.2.2⟩

/-- C6 as stated fails: in the run `firstRun`, `secondRun` both requests end
with status 200, yet the one completion call of the second request receives
three messages, one of them from the assistant, and not the four messages
(two user, two assistant) that the conversation holds afterwards. -/
theorem chat_two_requests_counterexample :
    firstRun.result.status = some 200
      ∧ secondRun.result.status = some 200
      ∧ secondRun.store.snapshot "u1"
        = [⟨"user", "hi"⟩, ⟨"assistant", "hello"⟩, ⟨"user", "again"⟩,
            ⟨"assistant", "welcome back"⟩]
      ∧ secondRun.calls
        ≠ [⟨"llama-3.1-8b-instant",
            [⟨"user", "hi"⟩, ⟨"assistant", "hello"⟩, ⟨"user", "again"⟩,
              ⟨"assistant", "welcome back"⟩]⟩]
      ∧ secondRun.calls.map (fun q => q.Messages.length) = [3]
      ∧ secondRun.calls.map
          (fun q => (q.Messages.filter (fun m => m.Role = ChatMessageRoleAssistant)).length)
        = [1] := by
  decide

/-- C7. Store ordering and isolation: from the empty store, after any finite
sequence of appends applied in order, the snapshot of every user `u` is the
subsequence of the appended messages whose user is `u`, in the order
appended; an append to user `a` leaves the snapshot of every other user `b`
as it was; and a user with no append in the sequence has an empty
snapshot. -/
theorem store_order_isolation (ops : List AppendOp) (u : String) :
    (applyAppends Store.empty ops).snapshot u
        = (ops.filter (fun op => op.userID = u)).map AppendOp.message
      ∧ (∀ (s : Store) (a b role content : String), a ≠ b →
          (s.append a role content).snapshot b = s.snapshot b)
      ∧ ((∀ op ∈ ops, op.userID ≠ u) → (applyAppends Store.empty ops).snapshot u = []) := by
  have main : (applyAppends Store.empty ops).snapshot u
      = (ops.filter (fun op => op.userID = u)).map AppendOp.message := by
    rw [applyAppends_snapshot]
    rfl
  refine ⟨main, ?_, ?_⟩
  · intro s a b role content hab
    exact Store.snapshot_append_other s a role content b (fun e => hab e.symm)
  · intro hno
    rw [main]
    have : ops.filter (fun op => decide (op.userID = u)) = [] := by
      rw [List.filter_eq_nil_iff]
      intro op hop
      simpa using hno op hop
    rw [this]
    rfl

/-- The sequence `threeAppends` read at `u1`, `u2` and at a user without
appends. -/
theorem store_order_isolation_witness :
    ((applyAppends Store.empty threeAppends).snapshot "u1"
        = [⟨"user", "a"⟩, ⟨"assistant", "c"⟩])
      ∧ ((applyAppends Store.empty threeAppends).snapshot "u2" = [⟨"user", "b"⟩])
      ∧ ("u1" ≠ "u2" ∧
          (storeTwoUsers.append "u1" "user" "x").snapshot "u2" = storeTwoUsers.snapshot "u2")
      ∧ ((∀ op ∈ threeAppends, op.userID ≠ "u3")
          ∧ (applyAppends Store.empty threeAppends).snapshot "u3" = []) :=
  ⟨(store_order_isolation threeAppends "u1").1,
    (store_order_isolation threeAppends "u2").1,
    ⟨by decide,
      (store_order_isolation threeAppends "u1").2.1 storeTwoUsers "u1" "u2" "user" "x"
        (by decide)⟩,
    ⟨by decide, (store_order_isolation threeAppends "u3").2.2 (by decide)⟩⟩

/-- C8 as amended. The three client-side rejections: for every store, a
request whose method is not POST is answered 405 `Only POST allowed`, a POST
request whose body the decoder rejects is answered 400 `Invalid JSON`, and a
POST request that decodes with an empty user_id or message is answered 400
`user_id and message required`; the three statuses are client-error codes, the
three texts are pairwise different, the status of the method rejection differs
from the other two, and the two body rejections share status 400. -/
theorem chat_rejections (env : Env) (s : Store) (r1 r2 r3 : Request) (e : String)
    (req : ChatRequest)
    (h1 : r1.Method ≠ MethodPost)
    (h2 : r2.Method = MethodPost) (hd2 : env.Decode r2.Body = .error e)
    (h3 : r3.Method = MethodPost) (hd3 : env.Decode r3.Body = .ok req)
    (hempty : req.UserID = "" ∨ req.Message = "") :
    ((chatHandler env s r1).result = .responded (httpError "Only POST allowed" 405)
      ∧ (chatHandler env s r2).result = .responded (httpError "Invalid JSON" 400)
      ∧ (chatHandler env s r3).result
          = .responded (httpError "user_id and message required" 400))
      ∧ ((chatHandler env s r1).result.body ≠ (chatHandler env s r2).result.body
        ∧ (chatHandler env s r1).result.body ≠ (chatHandler env s r3).result.body
        ∧ (chatHandler env s r2).result.body ≠ (chatHandler env s r3).result.body)
      ∧ ((chatHandler env s r1).result.status ≠ (chatHandler env s r2).result.status
        ∧ (chatHandler env s r1).result.status ≠ (chatHandler env s r3).result.status
        ∧ (chatHandler env s r2).result.status = (chatHandler env s r3).result.status)
      ∧ (∀ r ∈ [r1, r2, r3], ∃ code, (chatHandler env s r).result.status = some code
          ∧ 400 ≤ code ∧ code < 500) := by
  have e1 : (chatHandler env s r1).result = .responded (httpError "Only POST allowed" 405) := by
    unfold chatHandler
    simp [h1, StatusMethodNotAllowed]
  have e2 : (chatHandler env s r2).result = .responded (httpError "Invalid JSON" 400) := by
    unfold chatHandler
    simp [h2, hd2, StatusBadRequest]
  have e3 : (chatHandler env s r3).result
      = .responded (httpError "user_id and message required" 400) := by
    unfold chatHandler
    simp [h3, hd3, hempty, StatusBadRequest]
  refine ⟨⟨e1, e2, e3⟩, ?_, ?_, ?_⟩
  · rw [e1, e2, e3]
    decide
  · rw [e1, e2, e3]
    decide
  · intro r hr
    simp only [List.mem_cons, List.mem_singleton, List.not_mem_nil, or_false] at hr
    rcases hr with rfl | rfl | rfl
    · exact ⟨405, by rw [e1]; rfl, by decide, by decide⟩
    · exact ⟨400, by rw [e2]; rfl, by decide, by decide⟩
    · exact ⟨400, by rw [e3]; rfl, by decide, by decide⟩

/-- The three rejections on `storeTwoUsers`: a GET request, a body that is no
JSON text, and a body without a `message` field. -/
theorem chat_rejections_witness :
    getU1Hi.Method ≠ MethodPost
      ∧ stubDecode postGarbage.Body = .error "invalid character"
      ∧ stubDecode postU1Only.Body = .ok ⟨"u1", ""⟩
      ∧ (chatHandler ⟨stubDecode, stubReply "hello"⟩ storeTwoUsers getU1Hi).result
          = .responded (httpError "Only POST allowed" 405)
      ∧ (chatHandler ⟨stubDecode, stubReply "hello"⟩ storeTwoUsers postGarbage).result
          = .responded (httpError "Invalid JSON" 400)
      ∧ (chatHandler ⟨stubDecode, stubReply "hello"⟩ storeTwoUsers postU1Only).result
          = .responded (httpError "user_id and message required" 400) :=
  ⟨by decide, rfl, rfl,
    (chat_rejections ⟨stubDecode, stubReply "hello"⟩ storeTwoUsers getU1Hi postGarbage
      postU1Only "invalid character" ⟨"u1", ""⟩ (by decide) (by decide) rfl (by decide) rfl
      (Or.inr rfl)).1⟩

/-- C8 as stated fails: the rejection of a body that is no JSON text and the
rejection of a body without a `message` field carry the same status 400, so
the three rejection statuses are not pairwise different. -/
theorem chat_rejections_counterexample :
    (chatHandler ⟨stubDecode, stubReply "hello"⟩ Store.empty getU1Hi).result.status = some 405
      ∧ (chatHandler ⟨stubDecode, stubReply "hello"⟩ Store.empty postGarbage).result.status
          = some 400
      ∧ (chatHandler ⟨stubDecode, stubReply "hello"⟩ Store.empty postU1Only).result.status
          = some 400
      ∧ ¬ ((chatHandler ⟨stubDecode, stubReply "hello"⟩ Store.empty getU1Hi).result.status
            ≠ (chatHandler ⟨stubDecode, stubReply "hello"⟩ Store.empty postGarbage).result.status
          ∧ (chatHandler ⟨stubDecode, stubReply "hello"⟩ Store.empty getU1Hi).result.status
            ≠ (chatHandler ⟨stubDecode, stubReply "hello"⟩ Store.empty postU1Only).result.status
          ∧ (chatHandler ⟨stubDecode, stubReply "hello"⟩ Store.empty postGarbage).result.status
            ≠ (chatHandler ⟨stubDecode, stubReply "hello"⟩ Store.empty postU1Only).result.status) := by
  decide

/-! ## Lemmas on the interleaved steps -/

theorem PC.readOK_of_not_holdsLock (s : Store) (p : PC) (h : p.holdsLock = false) :
    p.readOK s := by
  cases p <;> simp_all [PC.holdsLock, PC.readOK]

/-- Every move that enters the locked section only from an unlocked mutex,
writes the map only from inside the locked section and leaves the mutex
locked exactly when the locked section is occupied keeps the lock
invariant. -/
theorem LockInv.move {σ : Sys} (h : LockInv σ) (w : Nat) (p : PC) (s2 : Store) (l2 : Bool)
    (c2 : List (Nat × ChatCompletionRequest))
    (hp : p.readOK s2)
    (hstore : s2 = σ.store ∨ (σ.pc w).holdsLock = true)
    (hcs : p.holdsLock = true → (σ.pc w).holdsLock = true ∨ σ.locked = false)
    (hl : l2 = true ↔ (p.holdsLock = true ∨ (σ.locked = true ∧ (σ.pc w).holdsLock = false))) :
    LockInv (Sys.goto ⟨s2, l2, σ.pc, c2⟩ w p) := by
  have others : ∀ i, i ≠ w → (σ.pc i).holdsLock = true → p.holdsLock = true → False := by
    intro i hi hci hcp
    rcases hcs hcp with hw | hfree
    · exact hi (h.excl i w hci hw)
    · have := h.held.mpr ⟨i, hci⟩
      rw [hfree] at this
      cases this
  constructor
  · intro i j hi hj
    simp only [Sys.goto] at hi hj
    by_cases hiw : i = w <;> by_cases hjw : j = w
    · rw [hiw, hjw]
    · simp only [hiw, hjw, if_true, if_false] at hi hj
      exact (others j hjw hj hi).elim
    · simp only [hiw, hjw, if_true, if_false] at hi hj
      exact (others i hiw hi hj).elim
    · simp only [hiw, hjw, if_false] at hi hj
      exact h.excl i j hi hj
  · simp only [Sys.goto]
    rw [hl]
    constructor
    · rintro (hcp | ⟨hlocked, hw⟩)
      · exact ⟨w, by simpa using hcp⟩
      · obtain ⟨i, hi⟩ := h.held.mp hlocked
        have hiw : i ≠ w := by
          intro e
          rw [e, hw] at hi
          cases hi
        exact ⟨i, by simpa [hiw] using hi⟩
    · rintro ⟨i, hi⟩
      by_cases hiw : i = w
      · left
        simpa [hiw] using hi
      · right
        simp only [hiw, if_false] at hi
        refine ⟨h.held.mpr ⟨i, hi⟩, ?_⟩
        cases hw : (σ.pc w).holdsLock with
        | false => rfl
        | true => exact (hiw (h.excl i w hi hw)).elim
  · intro i
    simp only [Sys.goto]
    by_cases hiw : i = w
    · simpa [hiw] using hp
    · simp only [hiw, if_false]
      rcases hstore with hs | hw
      · rw [hs]
        exact h.reads i
      · apply PC.readOK_of_not_holdsLock
        cases hi : (σ.pc i).holdsLock with
        | false => rfl
        | true => exact (hiw (h.excl i w hi hw)).elim

theorem validate_not_holdsLock (env : Env) (r : Request) :
    (validate env r).holdsLock = false := by
  unfold validate
  split
  · rfl
  · split
    · rfl
    · split <;> rfl

theorem afterCompletion_not_holdsLock (req : ChatRequest)
    (res : Except String ChatCompletionResponse) :
    (afterCompletion req res).holdsLock = false := by
  unfold afterCompletion
  split
  · rfl
  · split <;> rfl

theorem LockInv.at_start (s : Store) (reqs : Nat → Request) : LockInv (Sys.start s reqs) := by
  constructor
  · intro i j hi
    simp [Sys.start, PC.holdsLock] at hi
  · simp [Sys.start, PC.holdsLock]
  · intro i
    simp [Sys.start, PC.readOK]

/-- The lock invariant is kept by every step of every worker. -/
theorem LockInv.preserved {env : Env} {σ τ : Sys} {w : Nat} (h : LockInv σ)
    (hs : step env σ w = some τ) : LockInv τ := by
  have same : σ = ⟨σ.store, σ.locked, σ.pc, σ.calls⟩ := rfl
  have lockedOf : (σ.pc w).holdsLock = true → σ.locked = true := fun hw => h.held.mpr ⟨w, hw⟩
  unfold ChatBot.step at hs
  cases hpc : σ.pc w with
  | line49 r =>
    simp only [hpc, Option.some.injEq] at hs
    subst hs
    have hv := validate_not_holdsLock env r
    rw [same]
    exact h.move w _ _ _ _ (PC.readOK_of_not_holdsLock _ _ hv) (Or.inl rfl)
      (by simp [hv]) (by rw [hv, hpc]; simp [PC.holdsLock])
  | line65 req =>
    simp only [hpc] at hs
    split at hs
    · cases hs
    · rename_i hfree
      simp only [Option.some.injEq] at hs
      subst hs
      exact h.move w _ _ _ _ (by simp [PC.readOK]) (Or.inl rfl)
        (fun _ => Or.inr (by simpa using hfree)) (by simp [PC.holdsLock])
  | line66 req =>
    simp only [hpc, Option.some.injEq] at hs
    subst hs
    have hl := lockedOf (by simp [hpc, PC.holdsLock])
    rw [same]
    exact h.move w _ _ _ _ (by simp [PC.readOK]) (Or.inl rfl)
      (by simp [hpc, PC.holdsLock]) (by simp [hl, PC.holdsLock])
  | line66w req old =>
    simp only [hpc, Option.some.injEq] at hs
    subst hs
    have hl := lockedOf (by simp [hpc, PC.holdsLock])
    exact h.move w _ _ _ _ (by simp [PC.readOK]) (Or.inr (by simp [hpc, PC.holdsLock]))
      (by simp [hpc, PC.holdsLock]) (by simp [hl, PC.holdsLock])
  | line72 req =>
    simp only [hpc, Option.some.injEq] at hs
    subst hs
    have hl := lockedOf (by simp [hpc, PC.holdsLock])
    rw [same]
    exact h.move w _ _ _ _ (by simp [PC.readOK]) (Or.inl rfl)
      (by simp [hpc, PC.holdsLock]) (by simp [hl, PC.holdsLock])
  | line73 req messages =>
    simp only [hpc, Option.some.injEq] at hs
    subst hs
    exact h.move w _ _ _ _ (by simp [PC.readOK]) (Or.inl rfl)
      (by simp [PC.holdsLock]) (by simp [hpc, PC.holdsLock])
  | line75 req messages =>
    simp only [hpc, Option.some.injEq] at hs
    subst hs
    have hv := afterCompletion_not_holdsLock req
      (env.CreateChatCompletion ⟨modelName, messages⟩)
    exact h.move w _ _ _ _ (PC.readOK_of_not_holdsLock _ _ hv) (Or.inl rfl)
      (by simp [hv]) (by rw [hv, hpc]; simp [PC.holdsLock])
  | line90 req reply =>
    simp only [hpc] at hs
    split at hs
    · cases hs
    · rename_i hfree
      simp only [Option.some.injEq] at hs
      subst hs
      exact h.move w _ _ _ _ (by simp [PC.readOK]) (Or.inl rfl)
        (fun _ => Or.inr (by simpa using hfree)) (by simp [PC.holdsLock])
  | line91 req reply =>
    simp only [hpc, Option.some.injEq] at hs
    subst hs
    have hl := lockedOf (by simp [hpc, PC.holdsLock])
    rw [same]
    exact h.move w _ _ _ _ (by simp [PC.readOK]) (Or.inl rfl)
      (by simp [hpc, PC.holdsLock]) (by simp [hl, PC.holdsLock])
  | line91w req reply old =>
    simp only [hpc, Option.some.injEq] at hs
    subst hs
    have hl := lockedOf (by simp [hpc, PC.holdsLock])
    exact h.move w _ _ _ _ (by simp [PC.readOK]) (Or.inr (by simp [hpc, PC.holdsLock]))
      (by simp [hpc, PC.holdsLock]) (by simp [hl, PC.holdsLock])
  | line97 req reply =>
    simp only [hpc, Option.some.injEq] at hs
    subst hs
    exact h.move w _ _ _ _ (by simp [PC.readOK]) (Or.inl rfl)
      (by simp [PC.holdsLock]) (by simp [hpc, PC.holdsLock])
  | line99 reply =>
    simp only [hpc, Option.some.injEq] at hs
    subst hs
    rw [same]
    exact h.move w _ _ _ _ (by simp [PC.readOK]) (Or.inl rfl)
      (by simp [PC.holdsLock]) (by simp [hpc, PC.holdsLock])
  | finished res =>
    simp only [hpc] at hs
    cases hs

/-- Every reachable state satisfies the lock invariant. -/
theorem Reachable.lockInv {env : Env} {σ : Sys} (h : Reachable env σ) : LockInv σ := by
  induction h with
  | start s reqs => exact LockInv.at_start s reqs
  | step w _ hs ih => exact ih.preserved hs

/-- Running a schedule from a reachable state ends in a reachable state. -/
theorem Reachable.after_run {env : Env} {σ τ : Sys} (sched : List Nat) (h : Reachable env σ)
    (hr : run env σ sched = some τ) : Reachable env τ := by
  induction sched generalizing σ with
  | nil =>
    simp only [ChatBot.run, Option.some.injEq] at hr
    rw [← hr]
    exact h
  | cons w rest ih =>
    simp only [ChatBot.run] at hr
    cases hs : ChatBot.step env σ w with
    | none =>
      rw [hs] at hr
      cases hr
    | some ρ =>
      rw [hs] at hr
      exact ih (Reachable.step w h hs) hr

theorem run_append (env : Env) (σ : Sys) (a b : List Nat) :
    run env σ (a ++ b) = (run env σ a).bind (fun τ => run env τ b) := by
  induction a generalizing σ with
  | nil => rfl
  | cons w rest ih =>
    simp only [List.cons_append, run]
    cases step env σ w with
    | none => rfl
    | some ρ => exact ih ρ

theorem Sys.goto_absorb (s s2 : Store) (l l2 : Bool) (pc : Nat → PC)
    (c c2 : List (Nat × ChatCompletionRequest)) (v : Nat) (p q : PC) :
    Sys.goto ⟨s2, l2, (Sys.goto ⟨s, l, pc, c⟩ v p).pc, c2⟩ v q = Sys.goto ⟨s2, l2, pc, c2⟩ v q := by
  simp only [Sys.goto, Sys.mk.injEq, true_and, and_true]
  funext i
  by_cases h : i = v <;> simp [h]

theorem Sys.eq_goto_self (σ : Sys) (v : Nat) (p : PC) (h : σ.pc v = p) :
    σ = Sys.goto ⟨σ.store, σ.locked, σ.pc, σ.calls⟩ v p := by
  obtain ⟨s, l, pc, c⟩ := σ
  simp only [Sys.goto, Sys.mk.injEq, true_and, and_true]
  funext i
  by_cases hi : i = v
  · simp only at h
    simp [hi, h]
  · simp [hi]

theorem step_line49 (env : Env) (s : Store) (l : Bool) (pc : Nat → PC)
    (c : List (Nat × ChatCompletionRequest)) (v : Nat) (r : Request) :
    step env (Sys.goto ⟨s, l, pc, c⟩ v (.line49 r)) v
      = some (Sys.goto ⟨s, l, pc, c⟩ v (validate env r)) := by
  have hpc : (Sys.goto ⟨s, l, pc, c⟩ v (.line49 r)).pc v = .line49 r := by simp [Sys.goto]
  unfold step
  rw [hpc]
  simp only [Bool.false_eq_true, if_false]
  exact congrArg some (Sys.goto_absorb _ _ _ _ _ _ _ _ _ _)

theorem step_line66 (env : Env) (s : Store) (l : Bool) (pc : Nat → PC)
    (c : List (Nat × ChatCompletionRequest)) (v : Nat) (req : ChatRequest) :
    step env (Sys.goto ⟨s, l, pc, c⟩ v (.line66 req)) v
      = some (Sys.goto ⟨s, l, pc, c⟩ v (.line66w req (s.index req.UserID))) := by
  have hpc : (Sys.goto ⟨s, l, pc, c⟩ v (.line66 req)).pc v = .line66 req := by simp [Sys.goto]
  unfold step
  rw [hpc]
  simp only [Bool.false_eq_true, if_false]
  exact congrArg some (Sys.goto_absorb _ _ _ _ _ _ _ _ _ _)

theorem step_line66w (env : Env) (s : Store) (l : Bool) (pc : Nat → PC)
    (c : List (Nat × ChatCompletionRequest)) (v : Nat) (req : ChatRequest) (old : List ChatCompletionMessage) :
    step env (Sys.goto ⟨s, l, pc, c⟩ v (.line66w req old)) v
      = some (Sys.goto ⟨s.assign req.UserID (old ++ [⟨ChatMessageRoleUser, req.Message⟩]), l, pc, c⟩ v (.line72 req)) := by
  have hpc : (Sys.goto ⟨s, l, pc, c⟩ v (.line66w req old)).pc v = .line66w req old := by simp [Sys.goto]
  unfold step
  rw [hpc]
  simp only [Bool.false_eq_true, if_false]
  exact congrArg some (Sys.goto_absorb _ _ _ _ _ _ _ _ _ _)

theorem step_line72 (env : Env) (s : Store) (l : Bool) (pc : Nat → PC)
    (c : List (Nat × ChatCompletionRequest)) (v : Nat) (req : ChatRequest) :
    step env (Sys.goto ⟨s, l, pc, c⟩ v (.line72 req)) v
      = some (Sys.goto ⟨s, l, pc, c⟩ v (.line73 req (s.index req.UserID))) := by
  have hpc : (Sys.goto ⟨s, l, pc, c⟩ v (.line72 req)).pc v = .line72 req := by simp [Sys.goto]
  unfold step
  rw [hpc]
  simp only [Bool.false_eq_true, if_false]
  exact congrArg some (Sys.goto_absorb _ _ _ _ _ _ _ _ _ _)

theorem step_line73 (env : Env) (s : Store) (l : Bool) (pc : Nat → PC)
    (c : List (Nat × ChatCompletionRequest)) (v : Nat) (req : ChatRequest) (messages : List ChatCompletionMessage) :
    step env (Sys.goto ⟨s, l, pc, c⟩ v (.line73 req messages)) v
      = some (Sys.goto ⟨s, false, pc, c⟩ v (.line75 req messages)) := by
  have hpc : (Sys.goto ⟨s, l, pc, c⟩ v (.line73 req messages)).pc v = .line73 req messages := by simp [Sys.goto]
  unfold step
  rw [hpc]
  simp only [Bool.false_eq_true, if_false]
  exact congrArg some (Sys.goto_absorb _ _ _ _ _ _ _ _ _ _)

theorem step_line75 (env : Env) (s : Store) (l : Bool) (pc : Nat → PC)
    (c : List (Nat × ChatCompletionRequest)) (v : Nat) (req : ChatRequest) (messages : List ChatCompletionMessage) :
    step env (Sys.goto ⟨s, l, pc, c⟩ v (.line75 req messages)) v
      = some (Sys.goto ⟨s, l, pc, c ++ [(v, ⟨modelName, messages⟩)]⟩ v (afterCompletion req (env.CreateChatCompletion ⟨modelName, messages⟩))) := by
  have hpc : (Sys.goto ⟨s, l, pc, c⟩ v (.line75 req messages)).pc v = .line75 req messages := by simp [Sys.goto]
  unfold step
  rw [hpc]
  simp only [Bool.false_eq_true, if_false]
  exact congrArg some (Sys.goto_absorb _ _ _ _ _ _ _ _ _ _)

theorem step_line91 (env : Env) (s : Store) (l : Bool) (pc : Nat → PC)
    (c : List (Nat × ChatCompletionRequest)) (v : Nat) (req : ChatRequest) (reply : String) :
    step env (Sys.goto ⟨s, l, pc, c⟩ v (.line91 req reply)) v
      = some (Sys.goto ⟨s, l, pc, c⟩ v (.line91w req reply (s.index req.UserID))) := by
  have hpc : (Sys.goto ⟨s, l, pc, c⟩ v (.line91 req reply)).pc v = .line91 req reply := by simp [Sys.goto]
  unfold step
  rw [hpc]
  simp only [Bool.false_eq_true, if_false]
  exact congrArg some (Sys.goto_absorb _ _ _ _ _ _ _ _ _ _)

theorem step_line91w (env : Env) (s : Store) (l : Bool) (pc : Nat → PC)
    (c : List (Nat × ChatCompletionRequest)) (v : Nat) (req : ChatRequest) (reply : String) (old : List ChatCompletionMessage) :
    step env (Sys.goto ⟨s, l, pc, c⟩ v (.line91w req reply old)) v
      = some (Sys.goto ⟨s.assign req.UserID (old ++ [⟨ChatMessageRoleAssistant, reply⟩]), l, pc, c⟩ v (.line97 req reply)) := by
  have hpc : (Sys.goto ⟨s, l, pc, c⟩ v (.line91w req reply old)).pc v = .line91w req reply old := by simp [Sys.goto]
  unfold step
  rw [hpc]
  simp only [Bool.false_eq_true, if_false]
  exact congrArg some (Sys.goto_absorb _ _ _ _ _ _ _ _ _ _)

theorem step_line97 (env : Env) (s : Store) (l : Bool) (pc : Nat → PC)
    (c : List (Nat × ChatCompletionRequest)) (v : Nat) (req : ChatRequest) (reply : String) :
    step env (Sys.goto ⟨s, l, pc, c⟩ v (.line97 req reply)) v
      = some (Sys.goto ⟨s, false, pc, c⟩ v (.line99 reply)) := by
  have hpc : (Sys.goto ⟨s, l, pc, c⟩ v (.line97 req reply)).pc v = .line97 req reply := by simp [Sys.goto]
  unfold step
  rw [hpc]
  simp only [Bool.false_eq_true, if_false]
  exact congrArg some (Sys.goto_absorb _ _ _ _ _ _ _ _ _ _)

theorem step_line99 (env : Env) (s : Store) (l : Bool) (pc : Nat → PC)
    (c : List (Nat × ChatCompletionRequest)) (v : Nat) (reply : String) :
    step env (Sys.goto ⟨s, l, pc, c⟩ v (.line99 reply)) v
      = some (Sys.goto ⟨s, l, pc, c⟩ v (.finished (.responded ⟨StatusOK, "application/json", .jsonLine ⟨reply⟩⟩))) := by
  have hpc : (Sys.goto ⟨s, l, pc, c⟩ v (.line99 reply)).pc v = .line99 reply := by simp [Sys.goto]
  unfold step
  rw [hpc]
  simp only [Bool.false_eq_true, if_false]
  exact congrArg some (Sys.goto_absorb _ _ _ _ _ _ _ _ _ _)

theorem step_line65 (env : Env) (s : Store) (pc : Nat → PC)
    (c : List (Nat × ChatCompletionRequest)) (v : Nat) (req : ChatRequest) :
    step env (Sys.goto ⟨s, false, pc, c⟩ v (.line65 req)) v
      = some (Sys.goto ⟨s, true, pc, c⟩ v (.line66 req)) := by
  have hpc : (Sys.goto ⟨s, false, pc, c⟩ v (.line65 req)).pc v = .line65 req := by simp [Sys.goto]
  unfold step
  rw [hpc]
  simp only [Bool.false_eq_true, if_false]
  exact congrArg some (Sys.goto_absorb _ _ _ _ _ _ _ _ _ _)

theorem step_line90 (env : Env) (s : Store) (pc : Nat → PC)
    (c : List (Nat × ChatCompletionRequest)) (v : Nat) (req : ChatRequest) (reply : String) :
    step env (Sys.goto ⟨s, false, pc, c⟩ v (.line90 req reply)) v
      = some (Sys.goto ⟨s, true, pc, c⟩ v (.line91 req reply)) := by
  have hpc : (Sys.goto ⟨s, false, pc, c⟩ v (.line90 req reply)).pc v = .line90 req reply := by simp [Sys.goto]
  unfold step
  rw [hpc]
  simp only [Bool.false_eq_true, if_false]
  exact congrArg some (Sys.goto_absorb _ _ _ _ _ _ _ _ _ _)

/-- Lines 65-73 run without interruption: five steps from `line65` with the
mutex unlocked append the user message, take the snapshot and unlock. -/
theorem run_user_section (env : Env) (s : Store) (pc : Nat → PC)
    (c : List (Nat × ChatCompletionRequest)) (v : Nat) (req : ChatRequest) :
    run env (Sys.goto ⟨s, false, pc, c⟩ v (.line65 req)) (List.replicate 5 v)
      = some (Sys.goto ⟨s.append req.UserID ChatMessageRoleUser req.Message, false, pc, c⟩ v
          (.line75 req
            ((s.append req.UserID ChatMessageRoleUser req.Message).snapshot req.UserID))) := by
  simp only [List.replicate, run, step_line65, step_line66, step_line66w, step_line72,
    step_line73]
  rfl

/-- Lines 90-100 run without interruption: five steps from `line90` with the
mutex unlocked append the assistant message, unlock and write the response. -/
theorem run_assistant_section (env : Env) (s : Store) (pc : Nat → PC)
    (c : List (Nat × ChatCompletionRequest)) (v : Nat) (req : ChatRequest) (reply : String) :
    run env (Sys.goto ⟨s, false, pc, c⟩ v (.line90 req reply)) (List.replicate 5 v)
      = some (Sys.goto ⟨s.append req.UserID ChatMessageRoleAssistant reply, false, pc, c⟩ v
          (.finished (.responded ⟨StatusOK, "application/json", .jsonLine ⟨reply⟩⟩))) := by
  simp only [List.replicate, run, step_line90, step_line91, step_line91w, step_line97,
    step_line99]
  rfl

/-- A worker that runs alone from an unlocked mutex finishes its request, and
does to the store, to the response and to the completion calls exactly what
`chatHandler` does. -/
theorem run_solo (env : Env) (σ : Sys) (v : Nat) (r : Request)
    (hl : σ.locked = false) (hpc : σ.pc v = .line49 r) :
    ∃ n τ, run env σ (List.replicate n v) = some τ
      ∧ τ.pc v = .finished (chatHandler env σ.store r).result
      ∧ τ.store = (chatHandler env σ.store r).store
      ∧ τ.calls = σ.calls ++ (chatHandler env σ.store r).calls.map (fun q => (v, q))
      ∧ τ.locked = false
      ∧ ∀ i, i ≠ v → τ.pc i = σ.pc i := by
  have hσ := Sys.eq_goto_self σ v _ hpc
  rw [hl] at hσ
  generalize σ.store = s at hσ ⊢
  generalize σ.calls = c at hσ ⊢
  have fin : ∀ (n : Nat) (s2 : Store) (c2 : List ChatCompletionRequest) (res : Result),
      run env σ (List.replicate n v)
        = some (Sys.goto ⟨s2, false, σ.pc, c ++ c2.map (fun q => (v, q))⟩ v (.finished res)) →
      chatHandler env s r = ⟨res, s2, c2⟩ →
      ∃ n τ, run env σ (List.replicate n v) = some τ
        ∧ τ.pc v = .finished (chatHandler env s r).result
        ∧ τ.store = (chatHandler env s r).store
        ∧ τ.calls = c ++ (chatHandler env s r).calls.map (fun q => (v, q))
        ∧ τ.locked = false
        ∧ ∀ i, i ≠ v → τ.pc i = σ.pc i := by
    intro n s2 c2 res hrun hch
    refine ⟨n, _, hrun, ?_, ?_, ?_, rfl, ?_⟩
    · simp [Sys.goto, hch]
    · simp [Sys.goto, hch]
    · simp [Sys.goto, hch]
    · intro i hi
      simp [Sys.goto, hi]
  have first : run env σ (List.replicate 1 v)
      = some (Sys.goto ⟨s, false, σ.pc, c⟩ v (validate env r)) := by
    conv_lhs => rw [hσ]
    simp only [List.replicate, run, step_line49]
  by_cases hm : r.Method = MethodPost
  · cases hd : env.Decode r.Body with
    | error e =>
      apply fin 1 s [] (.responded (httpError "Invalid JSON" StatusBadRequest))
      · rw [first]
        simp [validate, hm, hd]
      · simp [chatHandler, hm, hd]
    | ok req =>
      by_cases hempty : req.UserID = "" ∨ req.Message = ""
      · apply fin 1 s [] (.responded (httpError "user_id and message required" StatusBadRequest))
        · rw [first]
          simp [validate, hm, hd, hempty]
        · simp [chatHandler, hm, hd, hempty]
      · have hval : validate env r = .line65 req := by
          simp [validate, hm, hd, hempty]
        have six : run env σ (List.replicate 6 v)
            = some (Sys.goto ⟨s.append req.UserID ChatMessageRoleUser req.Message, false,
                σ.pc, c⟩ v (.line75 req
                  ((s.append req.UserID ChatMessageRoleUser req.Message).snapshot
                    req.UserID))) := by
          have : List.replicate 6 v = List.replicate 1 v ++ List.replicate 5 v := rfl
          rw [this, run_append, first, hval]
          exact run_user_section env s σ.pc c v req
        have seven : run env σ (List.replicate 7 v)
            = some (Sys.goto ⟨s.append req.UserID ChatMessageRoleUser req.Message, false,
                σ.pc, c ++ [(v, ⟨modelName,
                  (s.append req.UserID ChatMessageRoleUser req.Message).snapshot
                    req.UserID⟩)]⟩ v
                (afterCompletion req (env.CreateChatCompletion ⟨modelName,
                  (s.append req.UserID ChatMessageRoleUser req.Message).snapshot
                    req.UserID⟩))) := by
          have : List.replicate 7 v = List.replicate 6 v ++ List.replicate 1 v := rfl
          rw [this, run_append, six]
          simp only [Option.bind, List.replicate, run, step_line75]
        push_neg at hempty
        have hch := chatHandler_validated env s r req hm hd hempty.1 hempty.2
        cases hc : env.CreateChatCompletion ⟨modelName,
            (s.append req.UserID ChatMessageRoleUser req.Message).snapshot req.UserID⟩ with
        | error e =>
          rw [hc] at hch seven
          exact fin 7 _ _ _ seven hch
        | ok resp =>
          rw [hc] at hch seven
          cases hchoices : resp.Choices with
          | nil =>
            simp only [hchoices] at hch
            simp only [afterCompletion, hchoices] at seven
            exact fin 7 _ _ _ seven hch
          | cons c0 rest =>
            simp only [hchoices] at hch
            simp only [afterCompletion, hchoices] at seven
            have twelve : run env σ (List.replicate 12 v)
                = some (Sys.goto ⟨(s.append req.UserID ChatMessageRoleUser req.Message).append
                    req.UserID ChatMessageRoleAssistant c0.Message.Content, false, σ.pc,
                    c ++ [(v, ⟨modelName,
                      (s.append req.UserID ChatMessageRoleUser req.Message).snapshot
                        req.UserID⟩)]⟩ v
                    (.finished (.responded ⟨StatusOK, "application/json",
                      .jsonLine ⟨c0.Message.Content⟩⟩))) := by
              have : List.replicate 12 v = List.replicate 7 v ++ List.replicate 5 v := rfl
              rw [this, run_append, seven]
              exact run_assistant_section env _ σ.pc _ v req c0.Message.Content
            exact fin 12 _ [_] _ twelve hch
  · apply fin 1 s [] (.responded (httpError "Only POST allowed" StatusMethodNotAllowed))
    · rw [first]
      simp [validate, hm]
    · simp [chatHandler, hm]

/-- A locked mutex is released by its holder alone: the worker inside the
locked section reaches its `Unlock` in at most four steps of its own, during
which the store stays as it is or gets the one append of that section. -/
theorem run_release (env : Env) (σ : Sys) (h : LockInv σ) (hl : σ.locked = true) :
    ∃ k n τ, (σ.pc k).holdsLock = true
      ∧ run env σ (List.replicate n k) = some τ
      ∧ τ.locked = false
      ∧ (∀ i, i ≠ k → τ.pc i = σ.pc i)
      ∧ (τ.store = σ.store ∨ ∃ u role content, τ.store = σ.store.append u role content) := by
  obtain ⟨k, hk⟩ := h.held.mp hl
  have hread := h.reads k
  have fin : ∀ (n : Nat) (s2 : Store) (p : PC),
      run env σ (List.replicate n k) = some (Sys.goto ⟨s2, false, σ.pc, σ.calls⟩ k p) →
      (s2 = σ.store ∨ ∃ u role content, s2 = σ.store.append u role content) →
      ∃ k n τ, (σ.pc k).holdsLock = true
        ∧ run env σ (List.replicate n k) = some τ
        ∧ τ.locked = false
        ∧ (∀ i, i ≠ k → τ.pc i = σ.pc i)
        ∧ (τ.store = σ.store ∨ ∃ u role content, τ.store = σ.store.append u role content) := by
    intro n s2 p hrun hs2
    refine ⟨k, n, _, hk, hrun, rfl, ?_, hs2⟩
    intro i hi
    simp [Sys.goto, hi]
  cases hpc : σ.pc k with
  | line66 req =>
    apply fin 4 (σ.store.append req.UserID ChatMessageRoleUser req.Message)
      (.line75 req ((σ.store.append req.UserID ChatMessageRoleUser req.Message).snapshot
        req.UserID))
    · conv_lhs => rw [Sys.eq_goto_self σ k _ hpc]
      simp only [List.replicate, run, step_line66, step_line66w, step_line72, step_line73]
      rfl
    · exact Or.inr ⟨_, _, _, rfl⟩
  | line66w req old =>
    rw [hpc] at hread
    simp only [PC.readOK] at hread
    apply fin 3 (σ.store.append req.UserID ChatMessageRoleUser req.Message)
      (.line75 req ((σ.store.append req.UserID ChatMessageRoleUser req.Message).snapshot
        req.UserID))
    · conv_lhs => rw [Sys.eq_goto_self σ k _ hpc]
      simp only [List.replicate, run, step_line66w, step_line72, step_line73]
      rw [← hread]
      rfl
    · exact Or.inr ⟨_, _, _, rfl⟩
  | line72 req =>
    apply fin 2 σ.store (.line75 req (σ.store.index req.UserID))
    · conv_lhs => rw [Sys.eq_goto_self σ k _ hpc]
      simp only [List.replicate, run, step_line72, step_line73]
    · exact Or.inl rfl
  | line73 req messages =>
    apply fin 1 σ.store (.line75 req messages)
    · conv_lhs => rw [Sys.eq_goto_self σ k _ hpc]
      simp only [List.replicate, run, step_line73]
    · exact Or.inl rfl
  | line91 req reply =>
    apply fin 3 (σ.store.append req.UserID ChatMessageRoleAssistant reply) (.line99 reply)
    · conv_lhs => rw [Sys.eq_goto_self σ k _ hpc]
      simp only [List.replicate, run, step_line91, step_line91w, step_line97]
      rfl
    · exact Or.inr ⟨_, _, _, rfl⟩
  | line91w req reply old =>
    rw [hpc] at hread
    simp only [PC.readOK] at hread
    apply fin 2 (σ.store.append req.UserID ChatMessageRoleAssistant reply) (.line99 reply)
    · conv_lhs => rw [Sys.eq_goto_self σ k _ hpc]
      simp only [List.replicate, run, step_line91w, step_line97]
      rw [← hread]
      rfl
    · exact Or.inr ⟨_, _, _, rfl⟩
  | line97 req reply =>
    apply fin 1 σ.store (.line99 reply)
    · conv_lhs => rw [Sys.eq_goto_self σ k _ hpc]
      simp only [List.replicate, run, step_line97]
    · exact Or.inl rfl
  | line49 r => simp [hpc, PC.holdsLock] at hk
  | line65 req => simp [hpc, PC.holdsLock] at hk
  | line75 req messages => simp [hpc, PC.holdsLock] at hk
  | line90 req reply => simp [hpc, PC.holdsLock] at hk
  | line99 reply => simp [hpc, PC.holdsLock] at hk
  | finished res => simp [hpc, PC.holdsLock] at hk

/-- Under the lock invariant a step changes the store only from inside the
locked section, and then by exactly one append. -/
theorem step_store (env : Env) (σ τ : Sys) (w : Nat) (h : LockInv σ)
    (hs : step env σ w = some τ) :
    τ.store = σ.store
      ∨ ((σ.pc w).holdsLock = true ∧ σ.locked = true
          ∧ ∃ u role content, τ.store = σ.store.append u role content) := by
  have hread := h.reads w
  have lockedOf : (σ.pc w).holdsLock = true → σ.locked = true := fun hw => h.held.mpr ⟨w, hw⟩
  unfold step at hs
  cases hpc : σ.pc w with
  | line66w req old =>
    rw [hpc] at hread
    simp only [PC.readOK] at hread
    simp only [hpc, Option.some.injEq] at hs
    subst hs
    right
    refine ⟨rfl, lockedOf (by rw [hpc]; rfl), req.UserID, ChatMessageRoleUser, req.Message, ?_⟩
    rw [← hread]
    rfl
  | line91w req reply old =>
    rw [hpc] at hread
    simp only [PC.readOK] at hread
    simp only [hpc, Option.some.injEq] at hs
    subst hs
    right
    refine ⟨rfl, lockedOf (by rw [hpc]; rfl), req.UserID, ChatMessageRoleAssistant, reply, ?_⟩
    rw [← hread]
    rfl
  | line65 req =>
    simp only [hpc] at hs
    split at hs
    · cases hs
    · simp only [Option.some.injEq] at hs
      subst hs
      exact Or.inl rfl
  | line90 req reply =>
    simp only [hpc] at hs
    split at hs
    · cases hs
    · simp only [Option.some.injEq] at hs
      subst hs
      exact Or.inl rfl
  | finished res =>
    simp only [hpc] at hs
    cases hs
  | line49 r =>
    simp only [hpc, Option.some.injEq] at hs
    subst hs
    exact Or.inl rfl
  | line66 req =>
    simp only [hpc, Option.some.injEq] at hs
    subst hs
    exact Or.inl rfl
  | line72 req =>
    simp only [hpc, Option.some.injEq] at hs
    subst hs
    exact Or.inl rfl
  | line73 req messages =>
    simp only [hpc, Option.some.injEq] at hs
    subst hs
    exact Or.inl rfl
  | line75 req messages =>
    simp only [hpc, Option.some.injEq] at hs
    subst hs
    exact Or.inl rfl
  | line91 req reply =>
    simp only [hpc, Option.some.injEq] at hs
    subst hs
    exact Or.inl rfl
  | line97 req reply =>
    simp only [hpc, Option.some.injEq] at hs
    subst hs
    exact Or.inl rfl
  | line99 reply =>
    simp only [hpc, Option.some.injEq] at hs
    subst hs
    exact Or.inl rfl

/-- A worker stalled in its completion call blocks nobody: any worker with a
newly received request can run to its response by steps of the lock holder
and of its own alone. -/
theorem run_past_stalled (env : Env) (σ : Sys) (h : LockInv σ) (w v : Nat)
    (req : ChatRequest) (messages : List ChatCompletionMessage) (r : Request)
    (hw : σ.pc w = .line75 req messages) (hv : σ.pc v = .line49 r) :
    ∃ sched s1 τ, w ∉ sched ∧ run env σ sched = some τ
      ∧ τ.pc w = .line75 req messages
      ∧ τ.pc v = .finished (chatHandler env s1 r).result
      ∧ τ.store = (chatHandler env s1 r).store
      ∧ (s1 = σ.store ∨ ∃ u role content, s1 = σ.store.append u role content) := by
  have hwv : w ≠ v := by
    intro e
    rw [e, hv] at hw
    cases hw
  cases hl : σ.locked with
  | false =>
    obtain ⟨n, τ, hrun, hpc, hstore, -, -, hothers⟩ := run_solo env σ v r hl hv
    refine ⟨List.replicate n v, σ.store, τ, ?_, hrun, ?_, hpc, hstore, Or.inl rfl⟩
    · intro hmem
      exact hwv (List.eq_of_mem_replicate hmem)
    · rw [hothers w hwv, hw]
  | true =>
    obtain ⟨k, n, τ1, hk, hrun1, hfree, hothers1, hstore1⟩ := run_release env σ h hl
    have hkw : w ≠ k := by
      intro e
      rw [← e, hw] at hk
      cases hk
    have hkv : v ≠ k := by
      intro e
      rw [← e, hv] at hk
      cases hk
    have hv1 : τ1.pc v = .line49 r := by rw [hothers1 v hkv, hv]
    obtain ⟨m, τ, hrun, hpc, hstore, -, -, hothers⟩ := run_solo env τ1 v r hfree hv1
    refine ⟨List.replicate n k ++ List.replicate m v, τ1.store, τ, ?_, ?_, ?_, hpc, hstore,
      hstore1⟩
    · intro hmem
      rcases List.mem_append.mp hmem with hm | hm
      · exact hkw (List.eq_of_mem_replicate hm)
      · exact hwv (List.eq_of_mem_replicate hm)
    · rw [run_append, hrun1]
      exact hrun
    · rw [hothers w hwv, hothers1 w hkw, hw]

theorem stateAtCall_run :
    run ⟨stubDecode, stubReply "hello"⟩ sameUserStart untilCallSchedule = some stateAtCall := by
  unfold stateAtCall
  cases h : run ⟨stubDecode, stubReply "hello"⟩ sameUserStart untilCallSchedule with
  | none =>
    have : (run ⟨stubDecode, stubReply "hello"⟩ sameUserStart untilCallSchedule).isSome
        = true := by decide
    rw [h] at this
    cases this
  | some τ => rfl

theorem stateAtCall_reachable : Reachable ⟨stubDecode, stubReply "hello"⟩ stateAtCall :=
  Reachable.after_run untilCallSchedule (Reachable.start _ _) stateAtCall_run

/-- C9. Lock discipline, on the handler cut into interleaved steps. In every
reachable state: (1) the mutex is locked exactly when a worker is between a
`Lock` and its `Unlock` (lines 66-73, 91-97), and at most one worker is;
(2) a worker at the completion call of line 75 is outside the locked section,
a locked mutex is then held by another worker, and the call step can be taken
whatever the mutex state and changes neither the mutex nor the store;
(3) every step that changes the store is taken inside the locked section with
the mutex locked and is exactly one append to one conversation; (4) while a
worker `w` sits in its completion call and takes no step, any worker `v` with
a newly received request runs to its response, handled as `chatHandler` handles
it on the store at that time; (5) requests of the same user are not
serialized: in `overlapSchedule` both requests of `u1` take their snapshot
before either reply is appended, so the second completion call sees no
assistant reply and the conversation ends as user, user, assistant, assistant,
unlike either sequential order. -/
theorem lock_discipline (env : Env) (σ : Sys) (hσ : Reachable env σ) :
    ((σ.locked = true ↔ ∃ i, (σ.pc i).holdsLock = true)
      ∧ ∀ i j, (σ.pc i).holdsLock = true → (σ.pc j).holdsLock = true → i = j)
    ∧ (∀ w req messages, σ.pc w = .line75 req messages →
        (σ.pc w).holdsLock = false
        ∧ (σ.locked = true → ∃ k, k ≠ w ∧ (σ.pc k).holdsLock = true)
        ∧ ∃ τ, step env σ w = some τ ∧ τ.store = σ.store ∧ τ.locked = σ.locked)
    ∧ (∀ w τ, step env σ w = some τ →
        τ.store = σ.store
        ∨ ((σ.pc w).holdsLock = true ∧ σ.locked = true
            ∧ ∃ u role content, τ.store = σ.store.append u role content))
    ∧ (∀ w v req messages r, σ.pc w = .line75 req messages → σ.pc v = .line49 r →
        ∃ sched s1 τ, w ∉ sched ∧ run env σ sched = some τ
          ∧ τ.pc w = .line75 req messages
          ∧ τ.pc v = .finished (chatHandler env s1 r).result
          ∧ τ.store = (chatHandler env s1 r).store
          ∧ (s1 = σ.store ∨ ∃ u role content, s1 = σ.store.append u role content))
    ∧ (∃ τ, run ⟨stubDecode, stubReply "hello"⟩ sameUserStart overlapSchedule = some τ
        ∧ τ.calls = [(0, ⟨modelName, [⟨"user", "hi"⟩]⟩),
            (1, ⟨modelName, [⟨"user", "hi"⟩, ⟨"user", "again"⟩]⟩)]
        ∧ τ.store.snapshot "u1"
          = [⟨"user", "hi"⟩, ⟨"user", "again"⟩, ⟨"assistant", "hello"⟩, ⟨"assistant", "hello"⟩]
        ∧ τ.store.snapshot "u1"
          ≠ (chatHandler ⟨stubDecode, stubReply "hello"⟩
              (chatHandler ⟨stubDecode, stubReply "hello"⟩ Store.empty postU1Hi).store
              postU1Again).store.snapshot "u1"
        ∧ τ.store.snapshot "u1"
          ≠ (chatHandler ⟨stubDecode, stubReply "hello"⟩
              (chatHandler ⟨stubDecode, stubReply "hello"⟩ Store.empty postU1Again).store
              postU1Hi).store.snapshot "u1") := by
  have inv := hσ.lockInv
  refine ⟨⟨inv.held, inv.excl⟩, ?_, ?_, ?_, ?_⟩
  · intro w req messages hw
    have hout : (σ.pc w).holdsLock = false := by rw [hw]; rfl
    refine ⟨hout, ?_, ?_⟩
    · intro hl
      obtain ⟨k, hk⟩ := inv.held.mp hl
      refine ⟨k, ?_, hk⟩
      intro e
      rw [e, hout] at hk
      cases hk
    · refine ⟨Sys.goto ⟨σ.store, σ.locked, σ.pc, σ.calls ++ [(w, ⟨modelName, messages⟩)]⟩ w
          (afterCompletion req (env.CreateChatCompletion ⟨modelName, messages⟩)), ?_, rfl, rfl⟩
      unfold step
      rw [hw]
  · intro w τ hs
    exact step_store env σ τ w inv hs
  · intro w v req messages r hw hv
    exact run_past_stalled env σ inv w v req messages r hw hv
  · cases h : run ⟨stubDecode, stubReply "hello"⟩ sameUserStart overlapSchedule with
    | none =>
      have : (run ⟨stubDecode, stubReply "hello"⟩ sameUserStart overlapSchedule).isSome
          = true := by decide
      rw [h] at this
      cases this
    | some τ =>
      have hc : (run ⟨stubDecode, stubReply "hello"⟩ sameUserStart overlapSchedule).map
          (fun τ => (τ.calls, τ.store.snapshot "u1"))
          = some ([(0, ⟨modelName, [⟨"user", "hi"⟩]⟩),
              (1, ⟨modelName, [⟨"user", "hi"⟩, ⟨"user", "again"⟩]⟩)],
            [⟨"user", "hi"⟩, ⟨"user", "again"⟩, ⟨"assistant", "hello"⟩,
              ⟨"assistant", "hello"⟩]) := by decide
      rw [h] at hc
      simp only [Option.map_some', Option.some.injEq, Prod.mk.injEq] at hc
      refine ⟨τ, rfl, hc.1, hc.2, ?_, ?_⟩
      · rw [hc.2]
        decide
      · rw [hc.2]
        decide

/-- The state `stateAtCall`: worker 0 waits in its completion call with the
mutex unlocked, and worker 1 can still run to its response. -/
theorem lock_discipline_witness :
    Reachable ⟨stubDecode, stubReply "hello"⟩ stateAtCall
      ∧ stateAtCall.pc 0 = .line75 ⟨"u1", "hi"⟩ [⟨"user", "hi"⟩]
      ∧ stateAtCall.pc 1 = .line49 postU1Again
      ∧ (stateAtCall.pc 0).holdsLock = false
      ∧ ∃ sched s1 τ, 0 ∉ sched ∧ run ⟨stubDecode, stubReply "hello"⟩ stateAtCall sched = some τ
          ∧ τ.pc 0 = .line75 ⟨"u1", "hi"⟩ [⟨"user", "hi"⟩]
          ∧ τ.pc 1 = .finished (chatHandler ⟨stubDecode, stubReply "hello"⟩ s1 postU1Again).result
          ∧ τ.store = (chatHandler ⟨stubDecode, stubReply "hello"⟩ s1 postU1Again).store
          ∧ (s1 = stateAtCall.store
            ∨ ∃ u role content, s1 = stateAtCall.store.append u role content) :=
  have h := lock_discipline ⟨stubDecode, stubReply "hello"⟩ stateAtCall stateAtCall_reachable
  ⟨stateAtCall_reachable, by decide, by decide,
    (h.2.1 0 ⟨"u1", "hi"⟩ [⟨"user", "hi"⟩] (by decide)).1,
    h.2.2.2.1 0 1 ⟨"u1", "hi"⟩ [⟨"user", "hi"⟩] postU1Again (by decide) (by decide)⟩

end ChatBot
